import Mathlib

/-!
Verification of the walk grid-layout engine excerpt.

The definitions below are a shallow embedding of the Go sources:
the grid layout engine (`sectionSizesForSpace`, `MinSizeForSize`), the
mutable grid model (`SetRange`, `ensureSufficientSize`, the stretch-factor
accessors) and the image view's `drawImage` geometry.  Machine integers are
modelled as `Int` (no computation here approaches 64-bit overflow), Go maps
as association lists, and the two float64 expressions of the engine are
modelled exactly over the rationals with truncation toward zero, which is
exact for the pixel magnitudes involved.  Go's integer division truncates
toward zero, hence `Int.tdiv` throughout.
-/

namespace Walk

/-- A width/height pair in physical pixels (`SizePixels`). -/
structure SizePixels where
  width : Int
  height : Int
deriving DecidableEq, Repr

/-- A width/height pair in 96-dpi logical units (`Size`). -/
structure Size where
  width : Int
  height : Int
deriving DecidableEq, Repr

/-- Margins in 96-dpi units (`Margins`): near/far on each axis. -/
structure Margins where
  hnear : Int
  vnear : Int
  hfar : Int
  vfar : Int
deriving DecidableEq, Repr

/-- Modelled from the spec: `IntFrom96DPI` (declared outside this excerpt)
converts a 96-dpi-relative integer into physical pixels by scaling with
dpi/96.  At the 96 DPI used by every example in the spec it is the identity,
which is the only case the concrete claims exercise; the universal theorems
treat its value symbolically. -/
def IntFrom96DPI (value dpi : Int) : Int :=
  value * dpi / 96

/-- Modelled from the spec: `MarginsFrom96DPI` converts each margin component. -/
def MarginsFrom96DPI (m : Margins) (dpi : Int) : Margins :=
  ⟨IntFrom96DPI m.hnear dpi, IntFrom96DPI m.vnear dpi,
   IntFrom96DPI m.hfar dpi, IntFrom96DPI m.vfar dpi⟩

/-- Modelled from the spec: `SizeFrom96DPI` converts both components. -/
def SizeFrom96DPI (s : Size) (dpi : Int) : SizePixels :=
  ⟨IntFrom96DPI s.width dpi, IntFrom96DPI s.height dpi⟩

/-- The subset of the `LayoutFlags` bit set that the grid engine reads. -/
structure LayoutFlags where
  growableHorz : Bool
  growableVert : Bool
  greedyHorz : Bool
  greedyVert : Bool
deriving DecidableEq, Repr

/-- One grid axis (`Orientation`). -/
inductive Orientation where
  | horizontal
  | vertical
deriving DecidableEq, Repr

/-- A layout item as the grid engine sees it: the per-item queries the engine
consumes (`shouldLayoutItem`, `LayoutFlags()`, `MinSizeEffectiveForChild`,
`Geometry().MaxSize`, `IdealSize()`, the height-for-width capability,
spacer-ness — external collaborators per the spec's interface section)
together with the snapshot's `gridLayoutItemInfo` (anchor cell and spans).
`heightForWidth = some f` models a `HeightForWidther` whose
`HasHeightForWidth()` returns true; an item that is no `IdealSizer` simply
has a zero `idealSize`, which the engine cannot distinguish. -/
structure ItemData where
  visible : Bool
  flags : LayoutFlags
  minSizeEff : SizePixels
  maxSize : SizePixels
  idealSize : SizePixels
  heightForWidth : Option (Int → Int)
  isSpacer : Bool
  cellRow : Nat
  cellCol : Nat
  spanHorz : Nat
  spanVert : Nat

/-- The snapshot one layout pass works on (`gridLayoutItem`).  Every cell an
item spans holds the same `ItemData`; the mutex is a concurrency artifact
with no effect on the computed values and is omitted; `size2MinSize` is the
memoization map, as an association list with most-recent-first lookup. -/
structure GridLayoutItem where
  cells : List (List (Option ItemData))
  rowStretchFactors : List Int
  columnStretchFactors : List Int
  margins : Margins
  spacing : Int
  dpi : Int
  size2MinSize : List (SizePixels × SizePixels)

def cellAt (li : GridLayoutItem) (row col : Nat) : Option ItemData :=
  (li.cells.getD row []).getD col none

def stretchFactorsFor (li : GridLayoutItem) : Orientation → List Int
  | .horizontal => li.columnStretchFactors
  | .vertical => li.rowStretchFactors

def otherAxisCount (li : GridLayoutItem) : Orientation → Nat
  | .horizontal => li.rowStretchFactors.length
  | .vertical => li.columnStretchFactors.length

/-- `spannedWidth`: total width of the columns an item spans, counting the
spacing after each nonzero column other than the first spanned one. -/
def spannedWidth (spacingPixels : Int) (info : ItemData) (widths : List Int) : Int :=
  (List.range info.spanHorz).foldl
    (fun width o =>
      let w := widths.getD (info.cellCol + o) 0
      if w > 0 then
        if o > 0 then width + w + spacingPixels else width + w
      else width)
    0

/-- Per-section accumulator of the first loop of `sectionSizesForSpace`:
the running `minSizes[i]`, `maxSizes[i]` and the two greedy flags. -/
structure SectionScan where
  minSize : Int
  maxSize : Int
  hasGreedyNonSpacer : Bool
  hasGreedySpacer : Bool
deriving DecidableEq, Repr

/-- Body of the first loop of `sectionSizesForSpace` for one cell (the item
is already known to be non-nil and visible). -/
def scanCell (orient : Orientation) (spacingPixels : Int) (widths : List Int)
    (acc : SectionScan) (item : ItemData) : SectionScan :=
  let pref : SizePixels := if item.heightForWidth.isSome then ⟨0, 0⟩ else item.idealSize
  match orient with
  | .horizontal =>
    let mn :=
      if item.spanHorz == 1 then max acc.minSize item.minSizeEff.width else acc.minSize
    let mx :=
      if item.maxSize.width > 0 then max acc.maxSize item.maxSize.width
      else if pref.width > 0 && !item.flags.growableHorz then max acc.maxSize pref.width
      else 32768
    let gs := acc.hasGreedySpacer || (item.spanHorz == 1 && item.flags.greedyHorz && item.isSpacer)
    let gn := acc.hasGreedyNonSpacer || (item.spanHorz == 1 && item.flags.greedyHorz && !item.isSpacer)
    ⟨mn, mx, gn, gs⟩
  | .vertical =>
    let mn :=
      if item.spanVert == 1 then
        match item.heightForWidth with
        | some f => max acc.minSize (f (spannedWidth spacingPixels item widths))
        | none => max acc.minSize item.minSizeEff.height
      else acc.minSize
    let mx :=
      if item.maxSize.height > 0 then max acc.maxSize item.maxSize.height
      else if item.heightForWidth.isSome && !item.flags.growableVert then mn
      else if pref.height > 0 && !item.flags.growableVert then max acc.maxSize pref.height
      else 32768
    let gs := acc.hasGreedySpacer || (item.spanVert == 1 && item.flags.greedyVert && item.isSpacer)
    let gn := acc.hasGreedyNonSpacer || (item.spanVert == 1 && item.flags.greedyVert && !item.isSpacer)
    ⟨mn, mx, gn, gs⟩

/-- First loop of `sectionSizesForSpace` for section `i`: walk every cell of
the section along the other axis. -/
def scanSection (li : GridLayoutItem) (orient : Orientation) (widths : List Int)
    (spacingPixels : Int) (i : Nat) : SectionScan :=
  (List.range (otherAxisCount li orient)).foldl
    (fun acc j =>
      let itemOpt := match orient with
        | .horizontal => cellAt li j i
        | .vertical => cellAt li i j
      match itemOpt with
      | none => acc
      | some item => if item.visible then scanCell orient spacingPixels widths acc item else acc)
    ⟨0, 0, false, false⟩

/-- `gridLayoutSectionInfo`: one entry of the to-be-sorted section list. -/
structure SectionInfo where
  index : Nat
  minSize : Int
  maxSize : Int
  stretch : Int
  hasGreedyNonSpacer : Bool
  hasGreedySpacer : Bool
deriving DecidableEq, Repr

/-- All sections of an axis with their scanned data (the `sortedSections`
array before the `sort.Stable` call): `stretch` is `maxi(1, stretchFactors[i])`. -/
def sectionInfos (li : GridLayoutItem) (orient : Orientation) (widths : List Int)
    (spacingPixels : Int) : List SectionInfo :=
  let sf := stretchFactorsFor li orient
  (List.range sf.length).map (fun i =>
    let s := scanSection li orient widths spacingPixels i
    ⟨i, s.minSize, s.maxSize, max 1 (sf.getD i 0), s.hasGreedyNonSpacer, s.hasGreedySpacer⟩)

/-- `gridLayoutSectionInfoList.Less`, verbatim: greedy non-spacer first, then
greedy spacer, then larger minimum size, then smaller maxSize/stretch
quotient (Go's integer division truncates toward zero, hence `Int.tdiv`). -/
def sectionLess (a b : SectionInfo) : Bool :=
  if a.hasGreedyNonSpacer == b.hasGreedyNonSpacer then
    if a.hasGreedySpacer == b.hasGreedySpacer then
      if a.minSize - b.minSize == 0 then
        decide (Int.tdiv a.maxSize a.stretch < Int.tdiv b.maxSize b.stretch)
      else decide (a.minSize - b.minSize > 0)
    else a.hasGreedySpacer
  else a.hasGreedyNonSpacer

/-- Insert `x` behind every element strictly `r`-less than it (the insertion
step of a stable insertion sort). -/
def ins (r : α → α → Bool) (x : α) : List α → List α
  | [] => [x]
  | y :: l => if r y x then y :: ins r x l else x :: y :: l

/-- Stable insertion sort.  For a strict weak order `r` its result is the
unique stably sorted permutation, which is what Go's `sort.Stable`
guarantees; the stability theorems below make this precise. -/
def isort (r : α → α → Bool) : List α → List α
  | [] => []
  | x :: l => ins r x (isort r l)

/-- Tier of a section in the three-pass distribution: 0 = has a greedy
non-spacer, 1 = has (only) a greedy spacer, 2 = neither; matches the
if/else-if/else chain that fills `stretchFactorsTotal` and the two counts. -/
def tierOf (info : SectionInfo) : Nat :=
  if info.hasGreedyNonSpacer then 0 else if info.hasGreedySpacer then 1 else 2

/-- `stretchFactorsTotal[t]`: sum of the raw stretch factors of the sections
of tier `t` (the source accumulates `stretchFactors[i]`, not the clamped
`stretch` field). -/
def tierStretchTotal (sf : List Int) (infos : List SectionInfo) (t : Nat) : Int :=
  (infos.filter (fun info => tierOf info == t)).foldl
    (fun acc info => acc + sf.getD info.index 0) 0

/-- Initial `spacingRemaining`: one spacing per section with positive computed
maximum size, minus one such spacing if that total is positive. -/
def initialSpacingRemaining (spacingPixels : Int) (maxSizes : List Int) : Int :=
  let s := maxSizes.foldl (fun acc m => if m > 0 then acc + spacingPixels else acc) 0
  if s > 0 then s - spacingPixels else s

/-- Running state of the distribution loop of `sectionSizesForSpace`. -/
structure DistState where
  sizes : List Int
  space : Int
  minSizesRemaining : Int
  spacingRemaining : Int
deriving DecidableEq, Repr

/-- One iteration of the inner distribution loop: assign section `info.index`
its size and update the running remainders; returns the new state and the
decremented remaining stretch total of the current tier.  The float64
expression converting `excessSpace * float64(stretch) / float64(remaining)` to a pixel count is
modelled exactly: the intermediate products are exact in float64 for all
realistic pixel magnitudes and the conversion truncates toward zero. -/
def distStep (sf : List Int) (spacingPixels : Int) (st : DistState) (T : Int)
    (info : SectionInfo) : DistState × Int :=
  let stretch := sf.getD info.index 0
  let mn := info.minSize
  let mx := info.maxSize
  let size :=
    if mn < mx then
      let excessSpace := st.space - st.minSizesRemaining - st.spacingRemaining
      let s := mn + Int.tdiv (excessSpace * stretch) T
      if s < mn then mn else if s > mx then mx else s
    else mn
  (⟨st.sizes.set info.index size, st.space - (size + spacingPixels),
    st.minSizesRemaining - mn, st.spacingRemaining - spacingPixels⟩, T - stretch)

/-- One tier pass of the distribution loop. -/
def distSegment (sf : List Int) (spacingPixels : Int) :
    DistState → Int → List SectionInfo → DistState × Int
  | st, T, [] => (st, T)
  | st, T, info :: rest =>
    let p := distStep sf spacingPixels st T info
    distSegment sf spacingPixels p.1 p.2 rest

/-- The per-axis spacing in physical pixels. -/
def spacingPixelsOf (li : GridLayoutItem) : Int :=
  IntFrom96DPI li.spacing li.dpi

/-- The section list of an axis, scanned from the grid. -/
def sectionInfosOf (li : GridLayoutItem) (orient : Orientation) (widths : List Int) :
    List SectionInfo :=
  sectionInfos li orient widths (spacingPixelsOf li)

/-- The sections in the order `sort.Stable` leaves them. -/
def sortedSectionsOf (li : GridLayoutItem) (orient : Orientation) (widths : List Int) :
    List SectionInfo :=
  isort sectionLess (sectionInfosOf li orient widths)

/-- `sectionCountWithGreedyNonSpacer`. -/
def greedyNonSpacerCount (li : GridLayoutItem) (orient : Orientation) (widths : List Int) : Nat :=
  (sectionInfosOf li orient widths).countP (fun s => s.hasGreedyNonSpacer)

/-- `sectionCountWithGreedySpacer`. -/
def greedySpacerCount (li : GridLayoutItem) (orient : Orientation) (widths : List Int) : Nat :=
  (sectionInfosOf li orient widths).countP (fun s => !s.hasGreedyNonSpacer && s.hasGreedySpacer)

/-- The order in which the three-tier loop of `sectionSizesForSpace` visits
the sorted sections: first the `counts[0]` leading entries, then the next
`counts[1]`, then the rest.  Concatenated, the loop simply walks the sorted
list front to back. -/
def processedSections (li : GridLayoutItem) (orient : Orientation) (widths : List Int) :
    List SectionInfo :=
  let sorted := sortedSectionsOf li orient widths
  let c0 := greedyNonSpacerCount li orient widths
  let c1 := greedySpacerCount li orient widths
  sorted.take c0 ++ ((sorted.drop c0).take c1 ++ sorted.drop (c0 + c1))

/-- Space available on an axis after subtracting the margins. -/
def spaceAfterMargins (li : GridLayoutItem) (orient : Orientation) (space : Int) : Int :=
  let marginsPixels := MarginsFrom96DPI li.margins li.dpi
  match orient with
  | .horizontal => space - (marginsPixels.hnear + marginsPixels.hfar)
  | .vertical => space - (marginsPixels.vnear + marginsPixels.vfar)

/-- Sum of the computed per-section minimum sizes (initial `minSizesRemaining`). -/
def sectionMinTotal (li : GridLayoutItem) (orient : Orientation) (widths : List Int) : Int :=
  ((sectionInfosOf li orient widths).map (fun s => s.minSize)).sum

/-- Initial `spacingRemaining` of an axis. -/
def spacingAllowance (li : GridLayoutItem) (orient : Orientation) (widths : List Int) : Int :=
  initialSpacingRemaining (spacingPixelsOf li) ((sectionInfosOf li orient widths).map (fun s => s.maxSize))

/-- `sectionSizesForSpace`: one full per-axis space distribution. -/
def sectionSizesForSpace (li : GridLayoutItem) (orient : Orientation) (space : Int)
    (widths : List Int) : List Int :=
  let sf := stretchFactorsFor li orient
  let sp := spacingPixelsOf li
  let infos := sectionInfosOf li orient widths
  let sorted := sortedSectionsOf li orient widths
  let c0 := greedyNonSpacerCount li orient widths
  let c1 := greedySpacerCount li orient widths
  let st0 : DistState :=
    ⟨List.replicate sf.length 0, spaceAfterMargins li orient space,
     sectionMinTotal li orient widths, spacingAllowance li orient widths⟩
  let st1 := (distSegment sf sp st0 (tierStretchTotal sf infos 0) (sorted.take c0)).1
  let st2 := (distSegment sf sp st1 (tierStretchTotal sf infos 1) ((sorted.drop c0).take c1)).1
  let st3 := (distSegment sf sp st2 (tierStretchTotal sf infos 2) (sorted.drop (c0 + c1))).1
  st3.sizes

/-! ### MinSizeForSize -/

/-- The `ws` array of `MinSizeForSize`: per column, the maximum effective
minimum width of the visible single-span items placed there, accumulated
row-major exactly as the source loop does. -/
def wsFold (li : GridLayoutItem) : List Int :=
  let n := (li.cells.getD 0 []).length
  (List.range li.cells.length).foldl
    (fun ws row =>
      (List.range n).foldl
        (fun ws col =>
          match cellAt li row col with
          | none => ws
          | some item =>
            if item.visible then
              if item.spanHorz == 1 then
                ws.set col (max (ws.getD col 0) item.minSizeEff.width)
              else ws
            else ws)
        ws)
    (List.replicate n 0)

/-- The per-row pass of `MinSizeForSize`: the tallest visible single-span
item of the row, a height-for-width item being measured at its spanned
width.  The source accumulates this maximum over per-row goroutines guarded
by a mutex; the result is the same maximum. -/
def rowMaxHeight (li : GridLayoutItem) (spacingPixels : Int) (widths : List Int)
    (row : Nat) : Int :=
  (List.range widths.length).foldl
    (fun maxH col =>
      match cellAt li row col with
      | none => maxH
      | some item =>
        if item.visible then
          if item.spanVert == 1 then
            match item.heightForWidth with
            | some f => max maxH (f (spannedWidth spacingPixels item widths))
            | none => max maxH item.minSizeEff.height
          else maxH
        else maxH)
    0

/-- The axis summation at the end of `MinSizeForSize`: every positive entry
contributes its value, plus one spacing if its index is positive. -/
def sumWithSpacing (spacingPixels : Int) (vals : List Int) : Int :=
  vals.enum.foldl
    (fun acc p =>
      if p.2 > 0 then
        if p.1 > 0 then acc + spacingPixels + p.2 else acc + p.2
      else acc)
    0

/-- Lookup in the `size2MinSize` association list (Go map indexing). -/
def lookupCache (cache : List (SizePixels × SizePixels)) (size : SizePixels) :
    Option SizePixels :=
  match cache with
  | [] => none
  | p :: rest => if p.1 = size then some p.2 else lookupCache rest size

/-- The cache-miss computation of `MinSizeForSize`: the `ws` pass, the two
per-axis distributions, the per-row tallest-item pass, and the axis sums.
It reads every snapshot field except the cache. -/
def computeMinSize (li : GridLayoutItem) (size : SizePixels) : SizePixels :=
  let sp := spacingPixelsOf li
  let marginsPixels := MarginsFrom96DPI li.margins li.dpi
  let ws := wsFold li
  let widths := sectionSizesForSpace li .horizontal size.width []
  let heights0 := sectionSizesForSpace li .vertical size.height widths
  let heights := (List.range heights0.length).map (rowMaxHeight li sp widths)
  ⟨marginsPixels.hnear + marginsPixels.hfar + sumWithSpacing sp ws,
   marginsPixels.vnear + marginsPixels.vfar + sumWithSpacing sp heights⟩

/-- `MinSizeForSize`, with the receiver mutation (the cache write) made
explicit: returns the computed minimum size together with the updated
snapshot.  A result with a non-positive component is not cached. -/
def MinSizeForSize (li : GridLayoutItem) (size : SizePixels) : SizePixels × GridLayoutItem :=
  if li.cells.length = 0 then (⟨0, 0⟩, li)
  else
    match lookupCache li.size2MinSize size with
    | some mn => (mn, li)
    | none =>
      let r := computeMinSize li size
      let cache :=
        if r.width > 0 && r.height > 0 then (size, r) :: li.size2MinSize
        else li.size2MinSize
      (r,
       ⟨li.cells, li.rowStretchFactors, li.columnStretchFactors, li.margins, li.spacing,
        li.dpi, cache⟩)

/-! ### The mutable grid model -/

/-- `gridLayoutCell`: the cell record; `widgetBase` identifies the owning
widget by its handle (pointer identity in the source). -/
structure GridCell where
  row : Int
  column : Int
  widgetBase : Option Nat
deriving DecidableEq, Repr

/-- `gridLayoutWidgetInfo`: `cell` is the anchor cell as (row, column)
coordinates (the source stores a pointer into `cells`, which
`ensureSufficientSize` re-points after regrowth so that only the coordinates
are observable). -/
structure WidgetInfo where
  cell : Option (Int × Int)
  spanHorz : Int
  spanVert : Int
  minSize : SizePixels
deriving DecidableEq, Repr

/-- `Rectangle` over grid coordinates (`RectangleGrid`). -/
structure RectangleGrid where
  x : Int
  y : Int
  width : Int
  height : Int
deriving DecidableEq, Repr

/-- `GridLayout`: the mutable configuration object.  `containerChildren` is
`none` for a nil container, otherwise the handles of the container's
children (all the code reads from the container is the membership check). -/
structure GridLayout where
  rowStretchFactors : List Int
  columnStretchFactors : List Int
  widgetBase2Info : List (Nat × WidgetInfo)
  cells : List (List GridCell)
  containerChildren : Option (List Nat)
  margins96dpi : Margins
  spacing96dpi : Int
deriving DecidableEq, Repr

/-- `NewGridLayout`: default margins 9/9/9/9 and spacing 6, empty model. -/
def NewGridLayout (container : Option (List Nat)) : GridLayout :=
  ⟨[], [], [], [], container, ⟨9, 9, 9, 9⟩, 6⟩

/-- Association-list lookup standing in for the `widgetBase2Info` map read. -/
def lookupInfo (m : List (Nat × WidgetInfo)) (w : Nat) : Option WidgetInfo :=
  match m with
  | [] => none
  | p :: rest => if p.1 = w then some p.2 else lookupInfo rest w

/-- `sufficientStretchFactors`: grow to `required` entries, new slots 1
(the capacity arithmetic of the source only affects allocation, not the
resulting slice contents). -/
def sufficientStretchFactors (sf : List Int) (required : Int) : List Int :=
  if (sf.length : Int) < required then sf ++ List.replicate (required - sf.length).toNat 1
  else sf

/-- `ensureSufficientSize`: grow the stretch-factor arrays, then the cell
rows, then every row's columns; fresh cells are zero-valued.  The final
re-pointing loop of the source only refreshes `info.cell` pointers into the
regrown array and has no observable effect on the coordinate model. -/
def ensureSufficientSize (l : GridLayout) (rows columns : Int) : GridLayout :=
  let rsf := sufficientStretchFactors l.rowStretchFactors rows
  let csf := sufficientStretchFactors l.columnStretchFactors columns
  let cells1 :=
    if l.cells.length < rsf.length then
      l.cells ++ List.replicate (rsf.length - l.cells.length) []
    else l.cells
  let cells2 := cells1.map (fun r =>
    if r.length < csf.length then r ++ List.replicate (csf.length - r.length) ⟨0, 0, none⟩
    else r)
  ⟨rsf, csf, l.widgetBase2Info, cells2, l.containerChildren, l.margins96dpi, l.spacing96dpi⟩

/-- `RowStretchFactor`: -1 for negative rows, default 1 beyond the bound. -/
def RowStretchFactor (l : GridLayout) (row : Int) : Int :=
  if row < 0 then -1
  else if (l.rowStretchFactors.length : Int) ≤ row then 1
  else l.rowStretchFactors.getD row.toNat 0

/-- `ColumnStretchFactor`: -1 for negative columns, default 1 beyond the bound. -/
def ColumnStretchFactor (l : GridLayout) (column : Int) : Int :=
  if column < 0 then -1
  else if (l.columnStretchFactors.length : Int) ≤ column then 1
  else l.columnStretchFactors.getD column.toNat 0

/-- `setWidgetOnCells`: mark every cell of the range as owned by `wb`. -/
def setWidgetOnCells (cells : List (List GridCell)) (wb : Option Nat) (r : RectangleGrid) :
    List (List GridCell) :=
  cells.enum.map (fun rowPair =>
    if r.y ≤ (rowPair.1 : Int) ∧ (rowPair.1 : Int) < r.y + r.height then
      rowPair.2.enum.map (fun colPair =>
        if r.x ≤ (colPair.1 : Int) ∧ (colPair.1 : Int) < r.x + r.width then
          ⟨colPair.2.row, colPair.2.column, wb⟩
        else colPair.2)
    else rowPair.2)

/-- The writes `cell.row = r.Y; cell.column = r.X` on `&cells[r.Y][r.X]`. -/
def setCellCoords (cells : List (List GridCell)) (y x : Nat) (rowVal colVal : Int) :
    List (List GridCell) :=
  let oldRow := cells.getD y []
  let oldCell := oldRow.getD x ⟨0, 0, none⟩
  cells.set y (oldRow.set x ⟨rowVal, colVal, oldCell.widgetBase⟩)

/-- `rangeFromGridLayoutWidgetInfo` for an info whose anchor cell is set. -/
def rangeFromWidgetInfo (rc : Int × Int) (info : WidgetInfo) : RectangleGrid :=
  ⟨rc.2, rc.1, info.spanHorz, info.spanVert⟩

/-- `SetRange`, with the receiver mutation made explicit: returns the updated
layout and the error (`none` on success).  Every error path returns before
any mutation, so it returns the layout unchanged. -/
def SetRange (l : GridLayout) (widget : Option Nat) (r : RectangleGrid) :
    GridLayout × Option String :=
  match widget with
  | none => (l, some "widget required")
  | some wb =>
    match l.containerChildren with
    | none => (l, some "container required")
    | some children =>
      if ¬ children.contains wb then (l, some "widget must be child of container")
      else if r.x < 0 ∨ r.y < 0 then (l, some "range.X and range.Y must be >= 0")
      else if r.width < 1 ∨ r.height < 1 then
        (l, some "range.Width and range.Height must be >= 1")
      else
        let oldInfo := lookupInfo l.widgetBase2Info wb
        let cells0 :=
          match oldInfo with
          | none => l.cells
          | some info =>
            match info.cell with
            | none => l.cells
            | some rc => setWidgetOnCells l.cells none (rangeFromWidgetInfo rc info)
        let l1 := ensureSufficientSize
          ⟨l.rowStretchFactors, l.columnStretchFactors, l.widgetBase2Info, cells0,
           l.containerChildren, l.margins96dpi, l.spacing96dpi⟩
          (r.y + r.height) (r.x + r.width)
        let cells2 := setCellCoords l1.cells r.y.toNat r.x.toNat r.y r.x
        let newInfo : WidgetInfo :=
          ⟨some (r.y, r.x), r.width, r.height,
           match oldInfo with
           | some info => info.minSize
           | none => ⟨0, 0⟩⟩
        let cells3 := setWidgetOnCells cells2 (some wb) r
        (⟨l1.rowStretchFactors, l1.columnStretchFactors, (wb, newInfo) :: l.widgetBase2Info,
          cells3, l.containerChildren, l.margins96dpi, l.spacing96dpi⟩, none)

/-- The per-item queries delivered by the widget system when a snapshot is
taken (`createLayoutItemForWidgetWithContext` plus the geometry reads). -/
structure ItemQueries where
  visible : Bool
  flags : LayoutFlags
  minSizeEff : SizePixels
  maxSize : SizePixels
  idealSize : SizePixels
  heightForWidth : Option (Int → Int)
  isSpacer : Bool

/-- `CreateLayoutItem`: snapshot the grid model into a `gridLayoutItem`;
`q` delivers the external per-widget queries, `dpi` is `ctx.dpi`.  The
`size2MinSize` cache starts empty. -/
def CreateLayoutItem (l : GridLayout) (q : Nat → ItemQueries) (dpi : Int) : GridLayoutItem :=
  let cells := l.cells.map (fun rowCells =>
    rowCells.map (fun c =>
      match c.widgetBase with
      | none => none
      | some w =>
        match lookupInfo l.widgetBase2Info w with
        | none => none
        | some info =>
          match info.cell with
          | none => none
          | some rc =>
            some ⟨(q w).visible, (q w).flags, (q w).minSizeEff, (q w).maxSize,
                  (q w).idealSize, (q w).heightForWidth, (q w).isSpacer,
                  rc.1.toNat, rc.2.toNat, info.spanHorz.toNat, info.spanVert.toNat⟩))
  ⟨cells, l.rowStretchFactors, l.columnStretchFactors, l.margins96dpi, l.spacing96dpi, dpi, []⟩

/-! ### ImageView.drawImage -/

/-- `RectanglePixels`. -/
structure RectanglePixels where
  x : Int
  y : Int
  width : Int
  height : Int
deriving DecidableEq, Repr

/-- `PointPixels`. -/
structure PointPixels where
  x : Int
  y : Int
deriving DecidableEq, Repr

/-- `ImageViewMode`. -/
inductive ImageViewMode where
  | ideal
  | corner
  | center
  | shrink
  | zoom
  | stretch
deriving DecidableEq, Repr

/-- The drawing command `drawImage` issues to the canvas. -/
inductive ImageDrawOp where
  | skip
  | stretched (bounds : RectanglePixels)
  | clippedAt (clipX1 clipY1 clipX2 clipY2 : Int) (pos : PointPixels)
  | drawAt (pos : PointPixels)
deriving DecidableEq, Repr

/-- Go's `math.Min` on the exact rationals modelling the float64 values. -/
def ratMin (a b : ℚ) : ℚ :=
  if a ≤ b then a else b

/-- The Go conversion of a float64 to the integer pixel type, truncation toward zero,
modelled on the exact rational. -/
def ratToPixel (q : ℚ) : Int :=
  Int.tdiv q.num (q.den : Int)

/-- The scale factor of the shrink/zoom modes: always scale in zoom mode,
scale only an oversized image in shrink mode. -/
def imageScale (mode : ImageViewMode) (s : SizePixels) (cbWidth cbHeight : Int) : ℚ :=
  if mode = ImageViewMode.zoom ∨ s.width > cbWidth ∨ s.height > cbHeight then
    ratMin ((cbWidth : ℚ) / (s.width : ℚ)) ((cbHeight : ℚ) / (s.height : ℚ))
  else 1

/-- `drawImage`: the geometry of the draw call for a given image size
(96-dpi units), mode, margin, DPI and client bounds.  Go integer division
truncates toward zero (`Int.tdiv`). -/
def drawImage (image : Option Size) (mode : ImageViewMode) (margin96dpi dpi : Int)
    (cbWidth cbHeight : Int) : ImageDrawOp :=
  match image with
  | none => .skip
  | some imgSize =>
    let margin := IntFrom96DPI margin96dpi dpi
    let w := cbWidth - margin * 2
    let h := cbHeight - margin * 2
    let s := SizeFrom96DPI imgSize dpi
    match mode with
    | .stretch => .stretched ⟨margin, margin, w, h⟩
    | .shrink =>
      let scale := imageScale .shrink s w h
      let bw := ratToPixel ((s.width : ℚ) * scale)
      let bh := ratToPixel ((s.height : ℚ) * scale)
      .stretched ⟨margin + Int.tdiv (w - bw) 2, margin + Int.tdiv (h - bh) 2, bw, bh⟩
    | .zoom =>
      let scale := imageScale .zoom s w h
      let bw := ratToPixel ((s.width : ℚ) * scale)
      let bh := ratToPixel ((s.height : ℚ) * scale)
      .stretched ⟨margin + Int.tdiv (w - bw) 2, margin + Int.tdiv (h - bh) 2, bw, bh⟩
    | .corner => .clippedAt margin margin (w + margin) (h + margin) ⟨margin, margin⟩
    | .center => .clippedAt margin margin (w + margin) (h + margin)
        ⟨margin + Int.tdiv (w - s.width) 2, margin + Int.tdiv (h - s.height) 2⟩
    | .ideal => .drawAt ⟨margin, margin⟩

end Walk

/-! ### Generic lemmas about the stable insertion sort and list bookkeeping -/

namespace Walk

theorem ins_perm (r : α → α → Bool) (x : α) : ∀ l : List α, (ins r x l).Perm (x :: l)
  | [] => List.Perm.refl _
  | y :: l => by
    unfold ins
    cases hr : r y x with
    | true =>
      simpa [hr] using ((ins_perm r x l).cons y).trans (List.Perm.swap x y l)
    | false => simp [hr]

theorem isort_perm (r : α → α → Bool) : ∀ l : List α, (isort r l).Perm l
  | [] => List.Perm.refl _
  | x :: l => (ins_perm r x (isort r l)).trans ((isort_perm r l).cons x)

theorem mem_isort {r : α → α → Bool} {l : List α} {a : α} : a ∈ isort r l ↔ a ∈ l :=
  (isort_perm r l).mem_iff

theorem ins_congr {r₁ r₂ : α → α → Bool} (h : ∀ a b, r₁ a b = r₂ a b) (x : α) :
    ∀ l : List α, ins r₁ x l = ins r₂ x l
  | [] => rfl
  | y :: l => by unfold ins; rw [h y x, ins_congr h x l]

theorem isort_congr {r₁ r₂ : α → α → Bool} (h : ∀ a b, r₁ a b = r₂ a b) :
    ∀ l : List α, isort r₁ l = isort r₂ l
  | [] => rfl
  | x :: l => by unfold isort; rw [isort_congr h l, ins_congr h x]

/-- Inserting an element whose original position precedes every element of a
stably sorted list keeps the list stably sorted: sorted by key `f`, equal
keys ordered by the original position `g`. -/
theorem ins_pairwise {κ : Type} [LinearOrder κ] (f : α → κ) (g : α → Nat)
    (r : α → α → Bool) (hr : ∀ a b, r a b = true ↔ f a < f b) (x : α) :
    ∀ l : List α,
      l.Pairwise (fun a b => f a < f b ∨ (f a = f b ∧ g a < g b)) →
      (∀ y ∈ l, g x < g y) →
      (ins r x l).Pairwise (fun a b => f a < f b ∨ (f a = f b ∧ g a < g b))
  | [], _, _ => by simp [ins]
  | y :: l, hl, hx => by
    rcases List.pairwise_cons.mp hl with ⟨hy, hl'⟩
    unfold ins
    cases hryx : r y x with
    | true =>
      rw [if_pos rfl]
      refine List.pairwise_cons.mpr ⟨?_, ins_pairwise f g r hr x l hl'
        (fun z hz => hx z (List.mem_cons_of_mem y hz))⟩
      intro z hz
      have hz' : z = x ∨ z ∈ l := by
        simpa using (ins_perm r x l).mem_iff.mp hz
      rcases hz' with rfl | hz'
      · exact Or.inl ((hr y z).mp hryx)
      · exact hy z hz'
    | false =>
      rw [if_neg (by simp)]
      refine List.pairwise_cons.mpr ⟨?_, hl⟩
      intro z hz
      have hfxy : f x ≤ f y := by
        by_contra hcon
        have := (hr y x).mpr (lt_of_not_le hcon)
        simp [this] at hryx
      rcases List.mem_cons.mp hz with rfl | hz'
      · rcases lt_or_eq_of_le hfxy with hlt | heq
        · exact Or.inl hlt
        · exact Or.inr ⟨heq, hx z (List.mem_cons_self z l)⟩
      · have hyz : f y ≤ f z := by
          rcases hy z hz' with hlt | ⟨heq, _⟩
          · exact le_of_lt hlt
          · exact le_of_eq heq
        rcases lt_or_eq_of_le (le_trans hfxy hyz) with hlt | heq
        · exact Or.inl hlt
        · exact Or.inr ⟨heq, hx z (List.mem_cons_of_mem y hz')⟩

/-- The insertion sort of a list with strictly increasing positions `g` is
stably sorted with respect to the key `f`. -/
theorem isort_pairwise {κ : Type} [LinearOrder κ] (f : α → κ) (g : α → Nat)
    (r : α → α → Bool) (hr : ∀ a b, r a b = true ↔ f a < f b) :
    ∀ l : List α, l.Pairwise (fun a b => g a < g b) →
      (isort r l).Pairwise (fun a b => f a < f b ∨ (f a = f b ∧ g a < g b))
  | [], _ => by simp [isort]
  | x :: l, hl => by
    rcases List.pairwise_cons.mp hl with ⟨hx, hl'⟩
    exact ins_pairwise f g r hr x (isort r l) (isort_pairwise f g r hr l hl')
      (fun y hy => hx y (mem_isort.mp hy))

theorem sum_set : ∀ (l : List Int) (i : Nat) (v : Int), i < l.length →
    (l.set i v).sum = l.sum - l.getD i 0 + v
  | [], i, v, h => by simp at h
  | a :: tl, 0, v, _ => by simp [List.sum_cons]; ring
  | a :: tl, i + 1, v, h => by
    have := sum_set tl i v (by simpa using Nat.lt_of_succ_lt_succ h)
    simp [List.sum_cons, List.getD_cons_succ, this]
    ring

theorem getD_set_ne (l : List Int) (i k : Nat) (v : Int) (h : i ≠ k) :
    (l.set i v).getD k 0 = l.getD k 0 := by
  simp [List.getD_eq_getElem?_getD, List.getElem?_set_ne h]

theorem foldl_add_sum (F : α → Int) : ∀ (l : List α) (acc : Int),
    l.foldl (fun a i => a + F i) acc = acc + (l.map F).sum
  | [], acc => by simp
  | x :: l, acc => by
    simp [foldl_add_sum F l (acc + F x)]
    ring

/-- In a list pairwise sorted for a monotone Boolean attribute `p` (every
element before a `p`-element is a `p`-element), the first `countP p` elements
are exactly the `p`-elements. -/
theorem take_countP_of_pairwise {p : α → Bool} : ∀ {S : List α},
    S.Pairwise (fun a b => p b = true → p a = true) →
    (∀ x ∈ S.take (S.countP p), p x = true) ∧ (∀ x ∈ S.drop (S.countP p), p x = false)
  | [], _ => by simp
  | x :: tl, hl => by
    rcases List.pairwise_cons.mp hl with ⟨hhead, htail⟩
    rcases take_countP_of_pairwise htail with ⟨ihtake, ihdrop⟩
    cases hp : p x with
    | true =>
      rw [List.countP_cons_of_pos p tl hp]
      constructor
      · intro z hz
        rcases List.mem_cons.mp (by simpa [List.take_succ_cons] using hz) with rfl | hz'
        · exact hp
        · exact ihtake z hz'
      · intro z hz
        exact ihdrop z (by simpa [List.drop_succ_cons] using hz)
    | false =>
      have hzero : tl.countP p = 0 := by
        rw [List.countP_eq_zero]
        intro a ha hpa
        simp [hhead a ha hpa] at hp
      rw [List.countP_cons_of_neg p tl (by simp [hp]), hzero]
      constructor
      · intro z hz
        simp at hz
      · intro z hz
        simp only [List.drop_zero] at hz
        rcases List.mem_cons.mp hz with rfl | hz'
        · exact hp
        · exact Bool.eq_false_iff.mpr (fun hpa => by
            have := List.countP_eq_zero.mp hzero z hz'
            exact this hpa)

end Walk

/-! ### The sort keys behind `gridLayoutSectionInfoList.Less` -/

namespace Walk

/-- Descending Boolean: a set flag sorts first. -/
def boolKey (b : Bool) : Int :=
  if b then 0 else 1

/-- The lexicographic sort key the amended claim C2 describes: sections with a
greedy non-spacer first; among them, sections that additionally contain a
greedy spacer first; then larger minimum size first; ties broken by smaller
`maxSize / stretch` (integer quotient, truncating toward zero, with the
stretch clamped to at least 1). -/
def amendedSectionKey (a : SectionInfo) : Lex (Int × Lex (Int × Lex (Int × Int))) :=
  toLex (boolKey a.hasGreedyNonSpacer,
    toLex (boolKey a.hasGreedySpacer,
      toLex (-a.minSize, Int.tdiv a.maxSize a.stretch)))

def amendedSectionLess (a b : SectionInfo) : Bool :=
  decide (amendedSectionKey a < amendedSectionKey b)

/-- The lexicographic sort key claim C2 literally states: the three tiers in
order, then larger minimum size first, then smaller `maxSize / stretch`
quotient first — with no greedy-spacer refinement inside a tier. -/
def claimedSectionKey (a : SectionInfo) : Lex (Int × Lex (Int × Int)) :=
  toLex ((tierOf a : Int), toLex (-a.minSize, Int.tdiv a.maxSize a.stretch))

def claimedSectionLess (a b : SectionInfo) : Bool :=
  decide (claimedSectionKey a < claimedSectionKey b)

theorem amendedKey_lt_iff (a b : SectionInfo) :
    amendedSectionKey a < amendedSectionKey b ↔
      (boolKey a.hasGreedyNonSpacer < boolKey b.hasGreedyNonSpacer ∨
        (boolKey a.hasGreedyNonSpacer = boolKey b.hasGreedyNonSpacer ∧
          (boolKey a.hasGreedySpacer < boolKey b.hasGreedySpacer ∨
            (boolKey a.hasGreedySpacer = boolKey b.hasGreedySpacer ∧
              (-a.minSize < -b.minSize ∨
                (-a.minSize = -b.minSize ∧
                  Int.tdiv a.maxSize a.stretch < Int.tdiv b.maxSize b.stretch)))))) := by
  unfold amendedSectionKey
  simp [Prod.Lex.lt_iff]

theorem sectionLess_iff (a b : SectionInfo) :
    sectionLess a b = true ↔ amendedSectionKey a < amendedSectionKey b := by
  rw [amendedKey_lt_iff]
  unfold sectionLess boolKey
  by_cases h : a.minSize - b.minSize = 0 <;>
    cases ha1 : a.hasGreedyNonSpacer <;> cases hb1 : b.hasGreedyNonSpacer <;>
      cases ha2 : a.hasGreedySpacer <;> cases hb2 : b.hasGreedySpacer <;>
        simp [h] <;> omega

theorem key_le_gNS {a b : SectionInfo}
    (h : amendedSectionKey a ≤ amendedSectionKey b) :
    b.hasGreedyNonSpacer = true → a.hasGreedyNonSpacer = true := by
  intro hb
  unfold amendedSectionKey boolKey at h
  cases ha1 : a.hasGreedyNonSpacer <;>
    simp [ha1, hb, Prod.Lex.le_iff, Prod.Lex.lt_iff] at h ⊢ <;> omega

theorem key_le_gS {a b : SectionInfo}
    (h : amendedSectionKey a ≤ amendedSectionKey b)
    (ha : a.hasGreedyNonSpacer = false) (hb : b.hasGreedyNonSpacer = false) :
    b.hasGreedySpacer = true → a.hasGreedySpacer = true := by
  intro hbs
  unfold amendedSectionKey boolKey at h
  cases ha2 : a.hasGreedySpacer <;>
    simp [ha, hb, ha2, hbs, Prod.Lex.le_iff, Prod.Lex.lt_iff] at h ⊢ <;> omega

theorem tier_mono_of_key_le {a b : SectionInfo}
    (h : amendedSectionKey a ≤ amendedSectionKey b) : tierOf a ≤ tierOf b := by
  unfold amendedSectionKey boolKey at h
  unfold tierOf
  cases ha1 : a.hasGreedyNonSpacer <;> cases hb1 : b.hasGreedyNonSpacer <;>
    cases ha2 : a.hasGreedySpacer <;> cases hb2 : b.hasGreedySpacer <;>
      simp [ha1, hb1, ha2, hb2, Prod.Lex.le_iff, Prod.Lex.lt_iff] at h ⊢ <;> omega

end Walk

/-! ### Structure of the sorted section list -/

namespace Walk

theorem sectionInfos_index_lt {li : GridLayoutItem} {orient : Orientation} {w : List Int}
    {x : SectionInfo} (hx : x ∈ sectionInfosOf li orient w) :
    x.index < (stretchFactorsFor li orient).length := by
  unfold sectionInfosOf sectionInfos at hx
  rcases List.mem_map.mp hx with ⟨i, hi, rfl⟩
  simpa using List.mem_range.mp hi

theorem sectionInfos_pairwise_index (li : GridLayoutItem) (orient : Orientation)
    (w : List Int) :
    (sectionInfosOf li orient w).Pairwise (fun a b => a.index < b.index) := by
  unfold sectionInfosOf sectionInfos
  rw [List.pairwise_map]
  exact (List.pairwise_lt_range _).imp (fun h => by simpa using h)

theorem sectionInfos_map_index (li : GridLayoutItem) (orient : Orientation) (w : List Int) :
    (sectionInfosOf li orient w).map (fun s => s.index) =
      List.range (stretchFactorsFor li orient).length := by
  unfold sectionInfosOf sectionInfos
  rw [List.map_map]
  exact (List.map_congr_left (fun i _ => rfl)).trans (List.map_id _)

theorem sortedSections_perm (li : GridLayoutItem) (orient : Orientation) (w : List Int) :
    (sortedSectionsOf li orient w).Perm (sectionInfosOf li orient w) :=
  isort_perm sectionLess _

theorem sorted_pairwise_stable (li : GridLayoutItem) (orient : Orientation) (w : List Int) :
    (sortedSectionsOf li orient w).Pairwise (fun a b =>
      amendedSectionKey a < amendedSectionKey b ∨
        (amendedSectionKey a = amendedSectionKey b ∧ a.index < b.index)) :=
  isort_pairwise amendedSectionKey (fun s => s.index) sectionLess sectionLess_iff _
    (sectionInfos_pairwise_index li orient w)

theorem sorted_pairwise_key_le (li : GridLayoutItem) (orient : Orientation) (w : List Int) :
    (sortedSectionsOf li orient w).Pairwise (fun a b =>
      amendedSectionKey a ≤ amendedSectionKey b) :=
  (sorted_pairwise_stable li orient w).imp (fun h => by
    rcases h with h | ⟨h, _⟩
    · exact le_of_lt h
    · exact le_of_eq h)

theorem processedSections_eq_sorted (li : GridLayoutItem) (orient : Orientation)
    (w : List Int) :
    processedSections li orient w = sortedSectionsOf li orient w := by
  unfold processedSections
  dsimp only
  rw [← List.drop_drop, List.take_append_drop, List.take_append_drop]

/-- The three loop segments are exactly the three tiers: positions `[0, c0)`
hold the greedy-non-spacer sections, positions `[c0, c0+c1)` the (purely)
greedy-spacer sections, and the rest neither. -/
theorem sorted_segments (li : GridLayoutItem) (orient : Orientation) (w : List Int) :
    (∀ x ∈ (sortedSectionsOf li orient w).take (greedyNonSpacerCount li orient w),
        tierOf x = 0) ∧
    (∀ x ∈ ((sortedSectionsOf li orient w).drop (greedyNonSpacerCount li orient w)).take
        (greedySpacerCount li orient w), tierOf x = 1) ∧
    (∀ x ∈ (sortedSectionsOf li orient w).drop
        (greedyNonSpacerCount li orient w + greedySpacerCount li orient w), tierOf x = 2) := by
  set S := sortedSectionsOf li orient w with hS
  have hpairle := sorted_pairwise_key_le li orient w
  rw [← hS] at hpairle
  -- first split: the greedy-non-spacer prefix
  have hmono1 : S.Pairwise (fun a b => (fun s => s.hasGreedyNonSpacer) b = true →
      (fun s => s.hasGreedyNonSpacer) a = true) :=
    hpairle.imp (fun h => key_le_gNS h)
  have hc0 : greedyNonSpacerCount li orient w = S.countP (fun s => s.hasGreedyNonSpacer) := by
    unfold greedyNonSpacerCount
    exact (List.Perm.countP_eq _ (sortedSections_perm li orient w)).symm
  rcases take_countP_of_pairwise hmono1 with ⟨htake1, hdrop1⟩
  rw [← hc0] at htake1 hdrop1
  -- second split inside the remainder
  have hdroppair : (S.drop (greedyNonSpacerCount li orient w)).Pairwise
      (fun a b => amendedSectionKey a ≤ amendedSectionKey b) := hpairle.drop
  have hmono2 : (S.drop (greedyNonSpacerCount li orient w)).Pairwise
      (fun a b => (fun s => s.hasGreedySpacer) b = true →
        (fun s => s.hasGreedySpacer) a = true) := by
    refine hdroppair.imp_of_mem (fun ha hb h => ?_)
    exact key_le_gS h (hdrop1 _ ha) (hdrop1 _ hb)
  have hc1 : greedySpacerCount li orient w =
      (S.drop (greedyNonSpacerCount li orient w)).countP (fun s => s.hasGreedySpacer) := by
    have e1 : greedySpacerCount li orient w =
        S.countP (fun s => !s.hasGreedyNonSpacer && s.hasGreedySpacer) :=
      (List.Perm.countP_eq _ (sortedSections_perm li orient w)).symm
    have e2 : S.countP (fun s => !s.hasGreedyNonSpacer && s.hasGreedySpacer) =
        (S.take (greedyNonSpacerCount li orient w)).countP
          (fun s => !s.hasGreedyNonSpacer && s.hasGreedySpacer) +
        (S.drop (greedyNonSpacerCount li orient w)).countP
          (fun s => !s.hasGreedyNonSpacer && s.hasGreedySpacer) := by
      rw [← List.countP_append, List.take_append_drop]
    have h1 : (S.take (greedyNonSpacerCount li orient w)).countP
        (fun s => !s.hasGreedyNonSpacer && s.hasGreedySpacer) = 0 := by
      rw [List.countP_eq_zero]
      intro a ha
      simp [htake1 a ha]
    have h2 : (S.drop (greedyNonSpacerCount li orient w)).countP
        (fun s => !s.hasGreedyNonSpacer && s.hasGreedySpacer) =
        (S.drop (greedyNonSpacerCount li orient w)).countP (fun s => s.hasGreedySpacer) := by
      refine List.countP_congr (fun x hx => ?_)
      simp [hdrop1 x hx]
    omega
  rcases take_countP_of_pairwise hmono2 with ⟨htake2, hdrop2⟩
  rw [← hc1] at htake2 hdrop2
  refine ⟨?_, ?_, ?_⟩
  · intro x hx
    unfold tierOf
    simp [htake1 x hx]
  · intro x hx
    unfold tierOf
    have hgs := htake2 x hx
    have hgn := hdrop1 x (List.mem_of_mem_take hx)
    simp [hgs, hgn]
  · intro x hx
    unfold tierOf
    rw [← List.drop_drop] at hx
    have hgs := hdrop2 x hx
    have hgn := hdrop1 x (List.mem_of_mem_drop hx)
    simp [hgs, hgn]

end Walk

/-! ### The claim-side description of the distribution loop -/

namespace Walk

/-- Remaining stretch-factor totals of the three tiers. -/
structure TierTotals where
  t0 : Int
  t1 : Int
  t2 : Int
deriving DecidableEq, Repr

def tierGet (tt : TierTotals) : Nat → Int
  | 0 => tt.t0
  | 1 => tt.t1
  | _ => tt.t2

def tierSet (tt : TierTotals) : Nat → Int → TierTotals
  | 0, v => ⟨v, tt.t1, tt.t2⟩
  | 1, v => ⟨tt.t0, v, tt.t2⟩
  | _ + 2, v => ⟨tt.t0, tt.t1, v⟩

theorem tierGet_set_self (tt : TierTotals) (t : Nat) (v : Int) :
    tierGet (tierSet tt t v) t = v := by
  match t with
  | 0 => rfl
  | 1 => rfl
  | n + 2 => rfl

theorem tierSet_get_self (tt : TierTotals) (t : Nat) :
    tierSet tt t (tierGet tt t) = tt := by
  match t with
  | 0 => rfl
  | 1 => rfl
  | n + 2 => rfl

theorem tierSet_set (tt : TierTotals) (t : Nat) (v u : Int) :
    tierSet (tierSet tt t v) t u = tierSet tt t u := by
  match t with
  | 0 => rfl
  | 1 => rfl
  | n + 2 => rfl

/-- The assigned size as the claim words it: for a section whose computed
minimum is strictly below its computed maximum, the minimum plus the excess
(remaining space minus remaining minimum sizes minus remaining spacing)
times the section's stretch factor over the remaining stretch total of its
tier, clamped to the `[minimum, maximum]` interval; otherwise the minimum.
The fractional share is truncated toward zero exactly as the float64-to-pixel
conversion of the source does. -/
def specAssignSize (excess stretch T mn mx : Int) : Int :=
  if mn < mx then max mn (min (mn + Int.tdiv (excess * stretch) T) mx) else mn

/-- The distribution pass as the claim words it: walk the sections in
assignment order, maintaining the running remaining space, remaining minimum
sizes, remaining spacing and one remaining stretch-factor total per tier,
where the tier of a section is read off its greedy flags. -/
def specDistribute (sf : List Int) (sp : Int) :
    DistState → TierTotals → List SectionInfo → DistState
  | st, _, [] => st
  | st, tt, info :: rest =>
    let t := tierOf info
    let T := tierGet tt t
    let stretch := sf.getD info.index 0
    let size := specAssignSize (st.space - st.minSizesRemaining - st.spacingRemaining)
      stretch T info.minSize info.maxSize
    specDistribute sf sp
      ⟨st.sizes.set info.index size, st.space - (size + sp),
       st.minSizesRemaining - info.minSize, st.spacingRemaining - sp⟩
      (tierSet tt t (T - stretch)) rest

/-- The resolved sizes exactly as claim C1 describes the distribution. -/
def specResolvedSizes (li : GridLayoutItem) (orient : Orientation) (space : Int)
    (widths : List Int) : List Int :=
  let sf := stretchFactorsFor li orient
  let infos := sectionInfosOf li orient widths
  (specDistribute sf (spacingPixelsOf li)
      ⟨List.replicate sf.length 0, spaceAfterMargins li orient space,
       sectionMinTotal li orient widths, spacingAllowance li orient widths⟩
      ⟨tierStretchTotal sf infos 0, tierStretchTotal sf infos 1, tierStretchTotal sf infos 2⟩
      (sortedSectionsOf li orient widths)).sizes

theorem distStep_eq (sf : List Int) (sp : Int) (st : DistState) (T : Int)
    (info : SectionInfo) :
    distStep sf sp st T info =
      (⟨st.sizes.set info.index
          (specAssignSize (st.space - st.minSizesRemaining - st.spacingRemaining)
            (sf.getD info.index 0) T info.minSize info.maxSize),
        st.space - (specAssignSize (st.space - st.minSizesRemaining - st.spacingRemaining)
            (sf.getD info.index 0) T info.minSize info.maxSize + sp),
        st.minSizesRemaining - info.minSize,
        st.spacingRemaining - sp⟩, T - sf.getD info.index 0) := by
  unfold distStep specAssignSize
  by_cases h : info.minSize < info.maxSize
  · have harith : ∀ s : Int,
        (if s < info.minSize then info.minSize else if s > info.maxSize then info.maxSize else s)
          = max info.minSize (min s info.maxSize) := by
      intro s
      rcases lt_trichotomy s info.minSize with hs | hs | hs <;>
        rcases lt_trichotomy s info.maxSize with hs2 | hs2 | hs2 <;>
          simp_all [max_def, min_def] <;> omega
    simp only [if_pos h, harith]
  · simp only [if_neg h]

theorem specDistribute_segment (sf : List Int) (sp : Int) (t : Nat) :
    ∀ (seg rest : List SectionInfo), (∀ i ∈ seg, tierOf i = t) →
      ∀ (st : DistState) (tt : TierTotals),
      specDistribute sf sp st tt (seg ++ rest) =
        specDistribute sf sp (distSegment sf sp st (tierGet tt t) seg).1
          (tierSet tt t (distSegment sf sp st (tierGet tt t) seg).2) rest
  | [], rest, _, st, tt => by
    simp [distSegment, tierSet_get_self]
  | info :: seg, rest, hseg, st, tt => by
    have ht : tierOf info = t := hseg info (List.mem_cons_self info seg)
    have htail : ∀ i ∈ seg, tierOf i = t := fun i hi => hseg i (List.mem_cons_of_mem info hi)
    rw [List.cons_append]
    simp only [specDistribute]
    rw [ht]
    rw [specDistribute_segment sf sp t seg rest htail]
    rw [tierGet_set_self, tierSet_set]
    simp only [distSegment, distStep_eq]

theorem specDistribute_uniform (sf : List Int) (sp : Int) (t : Nat)
    (seg : List SectionInfo) (h : ∀ i ∈ seg, tierOf i = t) (st : DistState)
    (tt : TierTotals) :
    specDistribute sf sp st tt seg = (distSegment sf sp st (tierGet tt t) seg).1 := by
  have hx := specDistribute_segment sf sp t seg [] h st tt
  rw [List.append_nil] at hx
  rw [hx]
  simp [specDistribute]

/-- The three-segment loop of `sectionSizesForSpace` computes exactly the
distribution claim C1 describes. -/
theorem sectionSizesForSpace_eq_spec (li : GridLayoutItem) (orient : Orientation)
    (space : Int) (widths : List Int) :
    sectionSizesForSpace li orient space widths = specResolvedSizes li orient space widths := by
  rcases sorted_segments li orient widths with ⟨h0, h1, h2⟩
  unfold sectionSizesForSpace specResolvedSizes
  dsimp only
  have hsplit : sortedSectionsOf li orient widths =
      (sortedSectionsOf li orient widths).take (greedyNonSpacerCount li orient widths) ++
      (((sortedSectionsOf li orient widths).drop (greedyNonSpacerCount li orient widths)).take
          (greedySpacerCount li orient widths) ++
        (sortedSectionsOf li orient widths).drop
          (greedyNonSpacerCount li orient widths + greedySpacerCount li orient widths)) := by
    rw [← List.drop_drop, List.take_append_drop, List.take_append_drop]
  conv_rhs => rw [hsplit]
  rw [specDistribute_segment _ _ 0 _ _ h0]
  rw [specDistribute_segment _ _ 1 _ _ h1]
  rw [specDistribute_uniform _ _ 2 _ h2]
  rfl

end Walk

/-! ### The budget invariant of the distribution loop -/

namespace Walk

theorem tdiv_share_le (E F T : Int) (hE : 0 ≤ E) (hF : 1 ≤ F) (hFT : F ≤ T) :
    Int.tdiv (E * F) T ≤ E := by
  have hT : 0 < T := by omega
  have h0 : 0 ≤ E * F := mul_nonneg hE (by omega)
  rw [Int.tdiv_eq_ediv h0 (le_of_lt hT)]
  calc E * F / T ≤ E * T / T := Int.ediv_le_ediv hT (mul_le_mul_of_nonneg_left hFT hE)
    _ = E := Int.mul_ediv_cancel E (ne_of_gt hT)

theorem specAssignSize_ge (excess stretch T mn mx : Int) :
    mn ≤ specAssignSize excess stretch T mn mx := by
  unfold specAssignSize
  split_ifs <;> omega

theorem specAssignSize_le (excess stretch T mn mx : Int)
    (h : Int.tdiv (excess * stretch) T ≤ excess) (hE : 0 ≤ excess) :
    specAssignSize excess stretch T mn mx - mn ≤ excess := by
  unfold specAssignSize
  split_ifs <;> omega

/-- One-pass invariant of the distribution loop: with a nonnegative excess
budget, a remaining stretch total equal to the stretch sum of the segment,
stretch factors at least 1, and fresh in-range target slots, the loop keeps
the excess budget nonnegative, and the final sizes, remaining-minimum and
remaining-spacing are accounted for exactly. -/
theorem distSegment_bound (sf : List Int) (sp : Int) :
    ∀ (seg : List SectionInfo) (st : DistState) (T : Int),
      T = (seg.map (fun i => sf.getD i.index 0)).sum →
      (∀ i ∈ seg, 1 ≤ sf.getD i.index 0) →
      0 ≤ st.space - st.minSizesRemaining - st.spacingRemaining →
      (∀ i ∈ seg, st.sizes.getD i.index 0 = 0) →
      (seg.map (fun i => i.index)).Nodup →
      (∀ i ∈ seg, i.index < st.sizes.length) →
      0 ≤ (distSegment sf sp st T seg).1.space -
            (distSegment sf sp st T seg).1.minSizesRemaining -
            (distSegment sf sp st T seg).1.spacingRemaining
      ∧ (distSegment sf sp st T seg).1.sizes.sum =
          st.sizes.sum + (st.space - (distSegment sf sp st T seg).1.space) -
            (seg.length : Int) * sp
      ∧ (distSegment sf sp st T seg).1.sizes.length = st.sizes.length
      ∧ (distSegment sf sp st T seg).1.minSizesRemaining =
          st.minSizesRemaining - (seg.map (fun i => i.minSize)).sum
      ∧ (distSegment sf sp st T seg).1.spacingRemaining =
          st.spacingRemaining - (seg.length : Int) * sp
      ∧ (∀ k, k ∉ seg.map (fun i => i.index) →
          (distSegment sf sp st T seg).1.sizes.getD k 0 = st.sizes.getD k 0)
  | [], st, T, _, _, hE, _, _, _ => by
    refine ⟨by simpa [distSegment] using hE, ?_, ?_, ?_, ?_, ?_⟩ <;>
      simp [distSegment]
  | info :: seg, st, T, hT, hF, hE, hfresh, hnodup, hrange => by
    have hF1 : 1 ≤ sf.getD info.index 0 := hF info (List.mem_cons_self info seg)
    have htail_nonneg : 0 ≤ (seg.map (fun i => sf.getD i.index 0)).sum :=
      List.sum_nonneg (fun x hx => by
        rcases List.mem_map.mp hx with ⟨i, hi, rfl⟩
        have := hF i (List.mem_cons_of_mem info hi)
        omega)
    have hTF : sf.getD info.index 0 ≤ T := by
      rw [hT, List.map_cons, List.sum_cons]
      omega
    have hshare : Int.tdiv ((st.space - st.minSizesRemaining - st.spacingRemaining) *
        sf.getD info.index 0) T ≤ st.space - st.minSizesRemaining - st.spacingRemaining :=
      tdiv_share_le _ _ _ hE hF1 hTF
    have hidx : info.index < st.sizes.length := hrange info (List.mem_cons_self info seg)
    have hfresh0 : st.sizes.getD info.index 0 = 0 := hfresh info (List.mem_cons_self info seg)
    have hnd : info.index ∉ seg.map (fun i => i.index) ∧
        (seg.map (fun i => i.index)).Nodup := by
      rw [List.map_cons, List.nodup_cons] at hnodup
      exact hnodup
    have hnodup_head : ∀ i ∈ seg, info.index ≠ i.index := by
      intro i hi hcon
      exact hnd.1 (hcon ▸ List.mem_map_of_mem (fun s => s.index) hi)
    have hstep : distSegment sf sp st T (info :: seg) =
        distSegment sf sp
          ⟨st.sizes.set info.index
              (specAssignSize (st.space - st.minSizesRemaining - st.spacingRemaining)
                (sf.getD info.index 0) T info.minSize info.maxSize),
            st.space - (specAssignSize (st.space - st.minSizesRemaining - st.spacingRemaining)
                (sf.getD info.index 0) T info.minSize info.maxSize + sp),
            st.minSizesRemaining - info.minSize,
            st.spacingRemaining - sp⟩ (T - sf.getD info.index 0) seg := by
      conv_lhs => rw [distSegment]
      rw [distStep_eq]
    set size := specAssignSize (st.space - st.minSizesRemaining - st.spacingRemaining)
      (sf.getD info.index 0) T info.minSize info.maxSize with hsizedef
    have hsize_ge : info.minSize ≤ size := specAssignSize_ge _ _ _ _ _
    have hsize_le : size - info.minSize ≤
        st.space - st.minSizesRemaining - st.spacingRemaining :=
      specAssignSize_le _ _ _ _ _ hshare hE
    have ih := distSegment_bound sf sp seg
      ⟨st.sizes.set info.index size,
        st.space - (size + sp), st.minSizesRemaining - info.minSize,
        st.spacingRemaining - sp⟩ (T - sf.getD info.index 0)
      (by rw [hT, List.map_cons, List.sum_cons]; omega)
      (fun i hi => hF i (List.mem_cons_of_mem info hi))
      (by dsimp only; omega)
      (fun i hi => by
        dsimp only
        rw [getD_set_ne _ _ _ _ (hnodup_head i hi)]
        exact hfresh i (List.mem_cons_of_mem info hi))
      hnd.2
      (fun i hi => by
        dsimp only
        rw [List.length_set]
        exact hrange i (List.mem_cons_of_mem info hi))
    rcases ih with ⟨iE, isum, ilen, imin, ispc, iout⟩
    rw [hstep]
    have hsumset : (st.sizes.set info.index size).sum = st.sizes.sum + size := by
      rw [sum_set st.sizes info.index size hidx, hfresh0]
      ring
    refine ⟨iE, ?_, ?_, ?_, ?_, ?_⟩
    · rw [isum]
      dsimp only
      rw [hsumset, List.length_cons]
      push_cast
      ring
    · rw [ilen]
      dsimp only
      rw [List.length_set]
    · rw [imin]
      dsimp only
      rw [List.map_cons, List.sum_cons]
      ring
    · rw [ispc]
      dsimp only
      rw [List.length_cons]
      push_cast
      ring
    · intro k hk
      rw [List.map_cons, List.mem_cons] at hk
      push_neg at hk
      rw [iout k (by simpa using hk.2)]
      dsimp only
      exact getD_set_ne _ _ _ _ (fun hcon => hk.1 hcon.symm)

end Walk

namespace Walk

theorem getD_replicate_zero (n k : Nat) : (List.replicate n (0 : Int)).getD k 0 = 0 := by
  by_cases h : k < n
  · rw [List.getD_eq_getElem _ _ (by simpa using h)]
    simp
  · rw [List.getD_eq_default _ _ (by simpa using Nat.le_of_not_lt h)]

theorem filter_three_left {p : SectionInfo → Bool} {A B C : List SectionInfo}
    (hA : ∀ x ∈ A, p x = true) (hB : ∀ x ∈ B, p x = false) (hC : ∀ x ∈ C, p x = false) :
    (A ++ (B ++ C)).filter p = A := by
  rw [List.filter_append, List.filter_append]
  rw [List.filter_eq_self.mpr hA,
    List.filter_eq_nil_iff.mpr (fun a ha => by simp [hB a ha]),
    List.filter_eq_nil_iff.mpr (fun a ha => by simp [hC a ha])]
  simp

theorem filter_three_mid {p : SectionInfo → Bool} {A B C : List SectionInfo}
    (hA : ∀ x ∈ A, p x = false) (hB : ∀ x ∈ B, p x = true) (hC : ∀ x ∈ C, p x = false) :
    (A ++ (B ++ C)).filter p = B := by
  rw [List.filter_append, List.filter_append]
  rw [List.filter_eq_self.mpr hB,
    List.filter_eq_nil_iff.mpr (fun a ha => by simp [hA a ha]),
    List.filter_eq_nil_iff.mpr (fun a ha => by simp [hC a ha])]
  simp

theorem filter_three_right {p : SectionInfo → Bool} {A B C : List SectionInfo}
    (hA : ∀ x ∈ A, p x = false) (hB : ∀ x ∈ B, p x = false) (hC : ∀ x ∈ C, p x = true) :
    (A ++ (B ++ C)).filter p = C := by
  rw [List.filter_append, List.filter_append]
  rw [List.filter_eq_self.mpr hC,
    List.filter_eq_nil_iff.mpr (fun a ha => by simp [hA a ha]),
    List.filter_eq_nil_iff.mpr (fun a ha => by simp [hB a ha])]
  simp

theorem tierStretchTotal_eq_sum (sf : List Int) (infos : List SectionInfo) (t : Nat) :
    tierStretchTotal sf infos t =
      ((infos.filter (fun info => tierOf info == t)).map (fun i => sf.getD i.index 0)).sum := by
  unfold tierStretchTotal
  rw [foldl_add_sum]
  ring

end Walk

namespace Walk

/-- The budget bound of `sectionSizesForSpace`: when all stretch factors are
at least 1 and the space left after the margins covers the total minimum
sizes plus the spacing allowance, the assigned sizes plus the spacing
allowance never exceed the space left after the margins. -/
theorem sectionSizes_sum_bounded (li : GridLayoutItem) (orient : Orientation)
    (space : Int) (widths : List Int)
    (hSF : ∀ f ∈ stretchFactorsFor li orient, 1 ≤ f)
    (hsp : sectionMinTotal li orient widths + spacingAllowance li orient widths ≤
      spaceAfterMargins li orient space) :
    (sectionSizesForSpace li orient space widths).sum + spacingAllowance li orient widths ≤
      spaceAfterMargins li orient space := by
  rcases sorted_segments li orient widths with ⟨h0, h1, h2⟩
  have hsplit : sortedSectionsOf li orient widths =
      (sortedSectionsOf li orient widths).take (greedyNonSpacerCount li orient widths) ++
      (((sortedSectionsOf li orient widths).drop (greedyNonSpacerCount li orient widths)).take
          (greedySpacerCount li orient widths) ++
        (sortedSectionsOf li orient widths).drop
          (greedyNonSpacerCount li orient widths + greedySpacerCount li orient widths)) := by
    rw [← List.drop_drop, List.take_append_drop, List.take_append_drop]
  set sf := stretchFactorsFor li orient with hsf
  set sp := spacingPixelsOf li with hspdef
  set S := sortedSectionsOf li orient widths with hS
  set c0 := greedyNonSpacerCount li orient widths with hc0
  set c1 := greedySpacerCount li orient widths with hc1
  set A := S.take c0 with hA
  set B := (S.drop c0).take c1 with hB
  set C := S.drop (c0 + c1) with hC
  set infos := sectionInfosOf li orient widths with hinfos
  -- Facts about every sorted element
  have hperm : S.Perm infos := sortedSections_perm li orient widths
  have hmemidx : ∀ x ∈ S, x.index < sf.length := fun x hx =>
    sectionInfos_index_lt (hperm.subset hx)
  have hge1 : ∀ x ∈ S, 1 ≤ sf.getD x.index 0 := fun x hx => by
    have hidx := hmemidx x hx
    rw [List.getD_eq_getElem sf 0 hidx]
    exact hSF _ (List.getElem_mem hidx)
  have hnodS : (S.map (fun i => i.index)).Nodup := by
    refine ((hperm.map (fun i => i.index)).symm).nodup ?_
    rw [sectionInfos_map_index li orient widths]
    exact List.nodup_range _
  -- The three tier totals are the stretch sums of the three segments
  have hfilter0 : S.filter (fun info => tierOf info == 0) = A := by
    conv_lhs => rw [hsplit]
    exact filter_three_left (fun x hx => by simp [h0 x hx])
      (fun x hx => by simp [h1 x hx]) (fun x hx => by simp [h2 x hx])
  have hfilter1 : S.filter (fun info => tierOf info == 1) = B := by
    conv_lhs => rw [hsplit]
    exact filter_three_mid (fun x hx => by simp [h0 x hx])
      (fun x hx => by simp [h1 x hx]) (fun x hx => by simp [h2 x hx])
  have hfilter2 : S.filter (fun info => tierOf info == 2) = C := by
    conv_lhs => rw [hsplit]
    exact filter_three_right (fun x hx => by simp [h0 x hx])
      (fun x hx => by simp [h1 x hx]) (fun x hx => by simp [h2 x hx])
  have hT0 : tierStretchTotal sf infos 0 = (A.map (fun i => sf.getD i.index 0)).sum := by
    rw [tierStretchTotal_eq_sum, ← hfilter0]
    exact ((hperm.filter _).map _).sum_eq.symm
  have hT1 : tierStretchTotal sf infos 1 = (B.map (fun i => sf.getD i.index 0)).sum := by
    rw [tierStretchTotal_eq_sum, ← hfilter1]
    exact ((hperm.filter _).map _).sum_eq.symm
  have hT2 : tierStretchTotal sf infos 2 = (C.map (fun i => sf.getD i.index 0)).sum := by
    rw [tierStretchTotal_eq_sum, ← hfilter2]
    exact ((hperm.filter _).map _).sum_eq.symm
  -- Disjointness of the three segments' index lists
  have hmapsplit : S.map (fun i => i.index) =
      A.map (fun i => i.index) ++ (B.map (fun i => i.index) ++ C.map (fun i => i.index)) := by
    conv_lhs => rw [hsplit]
    rw [List.map_append, List.map_append]
  rw [hmapsplit] at hnodS
  rw [List.nodup_append] at hnodS
  rcases hnodS with ⟨hnodA, hnodBC, hdisjA⟩
  rw [List.nodup_append] at hnodBC
  rcases hnodBC with ⟨hnodB, hnodC, hdisjB⟩
  -- Memberships of segments in S
  have hAS : ∀ x ∈ A, x ∈ S := fun x hx => List.mem_of_mem_take hx
  have hBS : ∀ x ∈ B, x ∈ S := fun x hx =>
    List.mem_of_mem_drop (List.mem_of_mem_take hx)
  have hCS : ∀ x ∈ C, x ∈ S := fun x hx => List.mem_of_mem_drop hx
  -- The initial state
  set st0 : DistState :=
    ⟨List.replicate sf.length 0, spaceAfterMargins li orient space,
      sectionMinTotal li orient widths, spacingAllowance li orient widths⟩ with hst0
  have bndA := distSegment_bound sf sp A st0 (tierStretchTotal sf infos 0)
    hT0 (fun i hi => hge1 i (hAS i hi))
    (by rw [hst0]; dsimp only; omega)
    (fun i hi => by rw [hst0]; exact getD_replicate_zero _ _)
    hnodA
    (fun i hi => by
      rw [hst0]; dsimp only; rw [List.length_replicate]; exact hmemidx i (hAS i hi))
  set st1 := (distSegment sf sp st0 (tierStretchTotal sf infos 0) A).1 with hst1
  rcases bndA with ⟨aE, asum, alen, amin, aspc, aout⟩
  have bndB := distSegment_bound sf sp B st1 (tierStretchTotal sf infos 1)
    hT1 (fun i hi => hge1 i (hBS i hi))
    aE
    (fun i hi => by
      rw [aout i.index (fun hmem => hdisjA hmem
        (List.mem_append_left _ (List.mem_map_of_mem _ hi)))]
      rw [hst0]; exact getD_replicate_zero _ _)
    hnodB
    (fun i hi => by
      rw [alen, hst0]; dsimp only; rw [List.length_replicate]; exact hmemidx i (hBS i hi))
  set st2 := (distSegment sf sp st1 (tierStretchTotal sf infos 1) B).1 with hst2
  rcases bndB with ⟨bE, bsum, blen, bmin, bspc, bout⟩
  have bndC := distSegment_bound sf sp C st2 (tierStretchTotal sf infos 2)
    hT2 (fun i hi => hge1 i (hCS i hi))
    bE
    (fun i hi => by
      rw [bout i.index (fun hmem => hdisjB hmem (List.mem_map_of_mem _ hi))]
      rw [aout i.index (fun hmem => hdisjA hmem
        (List.mem_append_right _ (List.mem_map_of_mem _ hi)))]
      rw [hst0]; exact getD_replicate_zero _ _)
    hnodC
    (fun i hi => by
      rw [blen, alen, hst0]; dsimp only; rw [List.length_replicate]
      exact hmemidx i (hCS i hi))
  set st3 := (distSegment sf sp st2 (tierStretchTotal sf infos 2) C).1 with hst3
  rcases bndC with ⟨cE, csum, clen, cmin, cspc, cout⟩
  -- The output of sectionSizesForSpace is st3.sizes
  have hout : sectionSizesForSpace li orient space widths = st3.sizes := rfl
  -- Total minimum sizes are fully consumed
  have hminS : (S.map (fun i => i.minSize)).sum = sectionMinTotal li orient widths := by
    unfold sectionMinTotal
    exact (hperm.map _).sum_eq
  have hminsplit : (A.map (fun i => i.minSize)).sum + (B.map (fun i => i.minSize)).sum +
      (C.map (fun i => i.minSize)).sum = sectionMinTotal li orient widths := by
    rw [← hminS]
    conv_rhs => rw [hsplit]
    rw [List.map_append, List.map_append, List.sum_append, List.sum_append]
    ring
  have hmin3 : st3.minSizesRemaining = 0 := by
    rw [cmin, bmin, amin, hst0]
    dsimp only
    omega
  -- Initial sizes sum to zero
  have hzsum : st0.sizes.sum = 0 := by
    rw [hst0]
    simp
  -- Assemble
  have hspc3 : st3.spacingRemaining =
      spacingAllowance li orient widths -
        ((A.length : Int) + (B.length : Int) + (C.length : Int)) * sp := by
    rw [cspc, bspc, aspc, hst0]
    dsimp only
    ring
  have hsum3 : st3.sizes.sum = (st0.space - st3.space) -
      ((A.length : Int) + (B.length : Int) + (C.length : Int)) * sp := by
    rw [csum, bsum, asum, hzsum]
    ring
  rw [hout]
  have e0space : st0.space = spaceAfterMargins li orient space := rfl
  linarith [cE, hmin3, hspc3, hsum3, e0space]

end Walk


/-! ### Only single-span items feed the per-section minimum sizes (C4) -/

namespace Walk

/-- Span of an item along an axis. -/
def spanOn : Orientation → ItemData → Nat
  | .horizontal, it => it.spanHorz
  | .vertical, it => it.spanVert

/-- The cell of section `i` at cross-axis position `j`. -/
def sectionCellAt (li : GridLayoutItem) (orient : Orientation) (i j : Nat) :
    Option ItemData :=
  match orient with
  | .horizontal => cellAt li j i
  | .vertical => cellAt li i j

/-- The minimum-size contribution of one item on an axis: horizontally the
effective minimum width; vertically the height-for-width at the spanned
width, or else the effective minimum height. -/
def minContribution (li : GridLayoutItem) (orient : Orientation) (widths : List Int)
    (item : ItemData) : Int :=
  match orient with
  | .horizontal => item.minSizeEff.width
  | .vertical =>
    match item.heightForWidth with
    | some f => f (spannedWidth (spacingPixelsOf li) item widths)
    | none => item.minSizeEff.height

/-- Modelled from the claim: only visible items fully contained in the
section (span exactly 1 on the axis) contribute to its minimum size. -/
def specMinStep (li : GridLayoutItem) (orient : Orientation) (widths : List Int)
    (i : Nat) (m : Int) (j : Nat) : Int :=
  match sectionCellAt li orient i j with
  | none => m
  | some item =>
    if item.visible && (spanOn orient item == 1) then
      max m (minContribution li orient widths item)
    else m

/-- Modelled from the claim: the per-section minimum size is the maximum of
the contributions of the visible single-span items placed in it. -/
def specSectionMinSize (li : GridLayoutItem) (orient : Orientation) (widths : List Int)
    (i : Nat) : Int :=
  (List.range (otherAxisCount li orient)).foldl (specMinStep li orient widths i) 0

/-- The engine's computed minimum size of a section (`minSizes[i]`). -/
def sectionMinSizeOf (li : GridLayoutItem) (orient : Orientation) (widths : List Int)
    (i : Nat) : Int :=
  (scanSection li orient widths (spacingPixelsOf li) i).minSize

/-- No visible item of the grid has span 1 on the axis (every visible item
spans at least two sections). -/
def multiSpanOnly (li : GridLayoutItem) (orient : Orientation) : Bool :=
  li.cells.all (fun rowCells => rowCells.all (fun c =>
    match c with
    | none => true
    | some item => !item.visible || decide (2 ≤ spanOn orient item)))

theorem cellAt_mem {li : GridLayoutItem} {r c : Nat} {item : ItemData}
    (h : cellAt li r c = some item) :
    ∃ rowCells ∈ li.cells, some item ∈ rowCells := by
  unfold cellAt at h
  by_cases hr : r < li.cells.length
  · rw [List.getD_eq_getElem _ _ hr] at h
    by_cases hc : c < li.cells[r].length
    · rw [List.getD_eq_getElem _ _ hc] at h
      exact ⟨li.cells[r], List.getElem_mem hr, h ▸ List.getElem_mem hc⟩
    · rw [List.getD_eq_default _ _ (Nat.le_of_not_lt hc)] at h
      cases h
  · rw [List.getD_eq_default _ _ (Nat.le_of_not_lt hr)] at h
    simp at h

theorem multiSpanOnly_no_span1 {li : GridLayoutItem} {orient : Orientation}
    (h : multiSpanOnly li orient = true) :
    ∀ r c item, cellAt li r c = some item → item.visible = true →
      ¬ spanOn orient item = 1 := by
  intro r c item hcell hvis
  rcases cellAt_mem hcell with ⟨rowCells, hrow, hmem⟩
  have h1 := List.all_eq_true.mp (List.all_eq_true.mp (by exact h) rowCells hrow)
    (some item) hmem
  simp only [hvis, Bool.not_true, Bool.false_or, decide_eq_true_eq] at h1
  omega

theorem scanCell_minSize (li : GridLayoutItem) (orient : Orientation) (widths : List Int)
    (acc : SectionScan) (item : ItemData) :
    (scanCell orient (spacingPixelsOf li) widths acc item).minSize =
      if spanOn orient item == 1 then
        max acc.minSize (minContribution li orient widths item)
      else acc.minSize := by
  cases orient with
  | horizontal =>
    unfold scanCell spanOn minContribution
    cases hspan : item.spanHorz == 1 <;> simp [hspan]
  | vertical =>
    unfold scanCell spanOn minContribution
    cases hspan : item.spanVert == 1 with
    | false => simp [hspan]
    | true => cases hhfw : item.heightForWidth <;> simp [hspan, hhfw]

theorem scanSection_minSize_eq (li : GridLayoutItem) (orient : Orientation)
    (widths : List Int) (i : Nat) :
    sectionMinSizeOf li orient widths i = specSectionMinSize li orient widths i := by
  unfold sectionMinSizeOf specSectionMinSize scanSection
  suffices h : ∀ (js : List Nat) (acc : SectionScan),
      (js.foldl (fun acc j =>
        let itemOpt := match orient with
          | .horizontal => cellAt li j i
          | .vertical => cellAt li i j
        match itemOpt with
        | none => acc
        | some item => if item.visible then
            scanCell orient (spacingPixelsOf li) widths acc item else acc) acc).minSize =
      js.foldl (specMinStep li orient widths i) acc.minSize by
    exact h _ _
  intro js
  induction js with
  | nil => intro acc; rfl
  | cons j js ih =>
    intro acc
    simp only [List.foldl_cons]
    rw [ih]
    congr 1
    show _ = specMinStep li orient widths i acc.minSize j
    unfold specMinStep sectionCellAt
    cases orient with
    | horizontal =>
      dsimp only
      cases hcell : cellAt li j i with
      | none => rfl
      | some item =>
        cases hvis : item.visible with
        | false => simp [hvis]
        | true =>
          simp only [hvis, Bool.true_and, if_true]
          rw [scanCell_minSize li .horizontal widths acc item]
    | vertical =>
      dsimp only
      cases hcell : cellAt li i j with
      | none => rfl
      | some item =>
        cases hvis : item.visible with
        | false => simp [hvis]
        | true =>
          simp only [hvis, Bool.true_and, if_true]
          rw [scanCell_minSize li .vertical widths acc item]

theorem specSectionMinSize_zero (li : GridLayoutItem) (orient : Orientation)
    (widths : List Int) (i : Nat) (h : multiSpanOnly li orient = true) :
    specSectionMinSize li orient widths i = 0 := by
  unfold specSectionMinSize
  suffices hgen : ∀ (js : List Nat),
      js.foldl (specMinStep li orient widths i) (0 : Int) = 0 by
    exact hgen _
  intro js
  induction js with
  | nil => rfl
  | cons j js ih =>
    simp only [List.foldl_cons]
    have hstep : specMinStep li orient widths i 0 j = 0 := by
      unfold specMinStep
      cases hcell : sectionCellAt li orient i j with
      | none => rfl
      | some item =>
        have hcond : (item.visible && (spanOn orient item == 1)) = false := by
          cases hvis : item.visible with
          | false => simp
          | true =>
            simp only [Bool.true_and]
            cases hspan : spanOn orient item == 1 with
            | false => rfl
            | true =>
              exfalso
              have hspan1 : spanOn orient item = 1 := by simpa using hspan
              unfold sectionCellAt at hcell
              cases horient : orient with
              | horizontal =>
                subst horient
                exact multiSpanOnly_no_span1 h j i item (by simpa using hcell) hvis hspan1
              | vertical =>
                subst horient
                exact multiSpanOnly_no_span1 h i j item (by simpa using hcell) hvis hspan1
        simp [hcond]
    rw [hstep, ih]

theorem sectionInfos_minSize (li : GridLayoutItem) (orient : Orientation)
    (widths : List Int) :
    ∀ info ∈ sectionInfosOf li orient widths,
      info.minSize = sectionMinSizeOf li orient widths info.index := by
  intro info hinfo
  unfold sectionInfosOf sectionInfos at hinfo
  rcases List.mem_map.mp hinfo with ⟨i, _, rfl⟩
  rfl

end Walk

/-! ### The axis sums of MinSizeForSize (C8) -/

namespace Walk

/-- Modelled from the amended claim: per axis, every positive section size
contributes its value, plus one spacing unit whenever its index is positive
(so a zero-sized leading section still lets a later positive section pay
the spacing). -/
def claimAxisSum (spacingPixels : Int) (vals : List Int) : Int :=
  (vals.enum.map (fun p =>
    if p.2 > 0 then p.2 + (if p.1 > 0 then spacingPixels else 0) else 0)).sum

/-- The original claim's formula: the sum of the non-zero section sizes plus
one spacing unit between each pair of non-zero sections. -/
def claimPairSum (spacingPixels : Int) (vals : List Int) : Int :=
  (vals.filter (fun v => v > 0)).sum +
    spacingPixels * max 0 ((vals.countP (fun v => v > 0) : Int) - 1)

theorem sumWithSpacing_eq_claim (sp : Int) (vals : List Int) :
    sumWithSpacing sp vals = claimAxisSum sp vals := by
  unfold sumWithSpacing claimAxisSum
  suffices h : ∀ (l : List (Nat × Int)) (acc : Int),
      l.foldl (fun acc p =>
        if p.2 > 0 then if p.1 > 0 then acc + sp + p.2 else acc + p.2 else acc) acc =
      acc + (l.map (fun p =>
        if p.2 > 0 then p.2 + (if p.1 > 0 then sp else 0) else 0)).sum by
    rw [h]
    ring
  intro l
  induction l with
  | nil => intro acc; simp
  | cons p l ih =>
    intro acc
    simp only [List.foldl_cons, List.map_cons, List.sum_cons, ih]
    split_ifs <;> ring

/-- The per-row heights summed by `MinSizeForSize`: the heights array after
the per-row tallest-item pass, one entry per vertical section. -/
def rowHeightsOf (li : GridLayoutItem) (size : SizePixels) : List Int :=
  (List.range (sectionSizesForSpace li .vertical size.height
      (sectionSizesForSpace li .horizontal size.width [])).length).map
    (rowMaxHeight li (spacingPixelsOf li) (sectionSizesForSpace li .horizontal size.width []))

theorem MinSizeForSize_compute (li : GridLayoutItem) (size : SizePixels)
    (hcells : li.cells.length ≠ 0)
    (hcache : lookupCache li.size2MinSize size = none) :
    (MinSizeForSize li size).1 =
      ⟨(MarginsFrom96DPI li.margins li.dpi).hnear + (MarginsFrom96DPI li.margins li.dpi).hfar +
          sumWithSpacing (spacingPixelsOf li) (wsFold li),
        (MarginsFrom96DPI li.margins li.dpi).vnear + (MarginsFrom96DPI li.margins li.dpi).vfar +
          sumWithSpacing (spacingPixelsOf li) (rowHeightsOf li size)⟩ := by
  unfold MinSizeForSize
  rw [if_neg hcells, hcache]
  rfl

end Walk

/-! ### Caching behavior of MinSizeForSize (C5) -/

namespace Walk

theorem computeMinSize_cache_blind (cells : List (List (Option ItemData)))
    (rsf csf : List Int) (m : Margins) (s dpi : Int)
    (cache1 cache2 : List (SizePixels × SizePixels)) (size : SizePixels) :
    computeMinSize ⟨cells, rsf, csf, m, s, dpi, cache1⟩ size =
      computeMinSize ⟨cells, rsf, csf, m, s, dpi, cache2⟩ size := rfl

/-- A second `MinSizeForSize` call with the same candidate size returns the
same value and leaves the snapshot unchanged, whether or not the first call
populated the cache. -/
theorem MinSizeForSize_idempotent (li : GridLayoutItem) (size : SizePixels) :
    MinSizeForSize (MinSizeForSize li size).2 size = MinSizeForSize li size := by
  by_cases hcells : li.cells.length = 0
  · have h1 : MinSizeForSize li size = (⟨0, 0⟩, li) := by
      unfold MinSizeForSize
      rw [if_pos hcells]
    rw [h1]
    exact h1
  · cases hlk : lookupCache li.size2MinSize size with
    | some mn =>
      have h1 : MinSizeForSize li size = (mn, li) := by
        unfold MinSizeForSize
        rw [if_neg hcells, hlk]
      rw [h1]
      exact h1
    | none =>
      have h1 : MinSizeForSize li size =
          (computeMinSize li size,
            ⟨li.cells, li.rowStretchFactors, li.columnStretchFactors, li.margins,
              li.spacing, li.dpi,
              if (computeMinSize li size).width > 0 ∧ (computeMinSize li size).height > 0 then
                (size, computeMinSize li size) :: li.size2MinSize
              else li.size2MinSize⟩) := by
        unfold MinSizeForSize
        rw [if_neg hcells, hlk]
        by_cases hpos : (computeMinSize li size).width > 0 ∧ (computeMinSize li size).height > 0
        · rw [if_pos hpos]
          have : ((computeMinSize li size).width > 0 &&
              (computeMinSize li size).height > 0 : Bool) = true := by
            simp [hpos.1, hpos.2]
          simp only [this, if_true]
        · rw [if_neg hpos]
          have : ((computeMinSize li size).width > 0 &&
              (computeMinSize li size).height > 0 : Bool) = false := by
            rcases not_and_or.mp hpos with h | h <;> simp [h] <;> omega
          simp only [this, Bool.false_eq_true, if_false]
      rw [h1]
      by_cases hpos : (computeMinSize li size).width > 0 ∧ (computeMinSize li size).height > 0
      · rw [if_pos hpos]
        unfold MinSizeForSize
        dsimp only
        rw [if_neg hcells]
        unfold lookupCache
        rw [if_pos rfl]
      · rw [if_neg hpos]
        unfold MinSizeForSize
        dsimp only
        rw [if_neg hcells, hlk]
        have hsame : computeMinSize
            ⟨li.cells, li.rowStretchFactors, li.columnStretchFactors, li.margins,
              li.spacing, li.dpi, li.size2MinSize⟩ size = computeMinSize li size := rfl
        rw [hsame]
        have : ((computeMinSize li size).width > 0 &&
            (computeMinSize li size).height > 0 : Bool) = false := by
          rcases not_and_or.mp hpos with h | h <;> simp [h] <;> omega
        simp only [this, Bool.false_eq_true, if_false]

/-- After a call that produced a positive result, the cache answers the
candidate size with exactly that result. -/
theorem MinSizeForSize_cached (li : GridLayoutItem) (size : SizePixels)
    (hw : 0 < (MinSizeForSize li size).1.width)
    (hh : 0 < (MinSizeForSize li size).1.height) :
    lookupCache (MinSizeForSize li size).2.size2MinSize size = some (MinSizeForSize li size).1 := by
  by_cases hcells : li.cells.length = 0
  · have h1 : MinSizeForSize li size = (⟨0, 0⟩, li) := by
      unfold MinSizeForSize
      rw [if_pos hcells]
    rw [h1] at hw
    simp at hw
  · cases hlk : lookupCache li.size2MinSize size with
    | some mn =>
      have h1 : MinSizeForSize li size = (mn, li) := by
        unfold MinSizeForSize
        rw [if_neg hcells, hlk]
      rw [h1]
      exact hlk
    | none =>
      have hr : (MinSizeForSize li size).1 = computeMinSize li size := by
        unfold MinSizeForSize
        rw [if_neg hcells, hlk]
      have hw2 : 0 < (computeMinSize li size).width := hr ▸ hw
      have hh2 : 0 < (computeMinSize li size).height := hr ▸ hh
      have hb : ((computeMinSize li size).width > 0 &&
          (computeMinSize li size).height > 0 : Bool) = true := by
        simp [hw2, hh2]
      have h1 : MinSizeForSize li size =
          (computeMinSize li size,
            ⟨li.cells, li.rowStretchFactors, li.columnStretchFactors, li.margins,
              li.spacing, li.dpi,
              (size, computeMinSize li size) :: li.size2MinSize⟩) := by
        unfold MinSizeForSize
        rw [if_neg hcells, hlk]
        simp only [hb, if_true]
      rw [h1]
      unfold lookupCache
      rw [if_pos rfl]

end Walk

/-! ### Validate-before-mutate of SetRange (C6) and grid growth (C7) -/

namespace Walk

/-- Claim C6 (confirmed): `SetRange` returns an error when the widget is
missing, the container is missing, the widget is not a child of the
container, the range has a negative X or Y, or its width or height is below
1 — and in every such case it returns before any mutation, so the layout
comes back completely unchanged together with the error. -/
theorem SetRange_validates (l : GridLayout) (widget : Option Nat) (r : RectangleGrid)
    (h : widget = none ∨ l.containerChildren = none ∨
      (∃ w cs, widget = some w ∧ l.containerChildren = some cs ∧ cs.contains w = false) ∨
      r.x < 0 ∨ r.y < 0 ∨ r.width < 1 ∨ r.height < 1) :
    (SetRange l widget r).1 = l ∧ (SetRange l widget r).2.isSome = true := by
  cases hw : widget with
  | none => exact ⟨rfl, rfl⟩
  | some wb =>
    unfold SetRange
    cases hc : l.containerChildren with
    | none => exact ⟨rfl, rfl⟩
    | some children =>
      dsimp only
      by_cases hmem : children.contains wb = true
      · rw [if_neg (not_not_intro hmem)]
        by_cases hxy : r.x < 0 ∨ r.y < 0
        · rw [if_pos hxy]
          exact ⟨rfl, rfl⟩
        · rw [if_neg hxy]
          by_cases hwh : r.width < 1 ∨ r.height < 1
          · rw [if_pos hwh]
            exact ⟨rfl, rfl⟩
          · exfalso
            rcases h with h | h | ⟨w2, cs2, hw2, hc2, hcon⟩ | h | h | h | h
            · rw [hw] at h; cases h
            · rw [hc] at h; cases h
            · rw [hw] at hw2
              rw [hc] at hc2
              injection hw2 with he1
              injection hc2 with he2
              subst he1
              subst he2
              rw [hmem] at hcon
              cases hcon
            · exact hxy (Or.inl h)
            · exact hxy (Or.inr h)
            · exact hwh (Or.inl h)
            · exact hwh (Or.inr h)
      · rw [if_pos hmem]
        exact ⟨rfl, rfl⟩

theorem sufficientStretchFactors_spec (sf : List Int) (required : Int) :
    (∀ (i : Nat) (v : Int), sf[i]? = some v →
        (sufficientStretchFactors sf required)[i]? = some v)
    ∧ sf.length ≤ (sufficientStretchFactors sf required).length
    ∧ (∀ i : Nat, sf.length ≤ i → i < (sufficientStretchFactors sf required).length →
        (sufficientStretchFactors sf required)[i]? = some 1) := by
  unfold sufficientStretchFactors
  split_ifs with hreq
  · refine ⟨?_, ?_, ?_⟩
    · intro i v hv
      have hi : i < sf.length := (List.getElem?_eq_some_iff.mp hv).1
      rw [List.getElem?_append_left hi]
      exact hv
    · rw [List.length_append]
      omega
    · intro i h1 h2
      rw [List.getElem?_append_right h1]
      rw [List.getElem?_replicate]
      rw [List.length_append, List.length_replicate] at h2
      rw [if_pos (by omega)]
  · exact ⟨fun i v hv => hv, le_refl _, fun i h1 h2 => absurd h2 (by omega)⟩

/-- Claim C7 (confirmed): growing the grid preserves the widget-info map,
every previously set row and column stretch factor and every stored
cell-widget association, only ever increases the row and column stretch
counts, and initializes every newly created stretch-factor slot to 1. -/
theorem ensureSufficientSize_spec (l : GridLayout) (rows cols : Int) :
    (ensureSufficientSize l rows cols).widgetBase2Info = l.widgetBase2Info
    ∧ (∀ (i : Nat) (v : Int), l.rowStretchFactors[i]? = some v →
        (ensureSufficientSize l rows cols).rowStretchFactors[i]? = some v)
    ∧ (∀ (i : Nat) (v : Int), l.columnStretchFactors[i]? = some v →
        (ensureSufficientSize l rows cols).columnStretchFactors[i]? = some v)
    ∧ l.rowStretchFactors.length ≤ (ensureSufficientSize l rows cols).rowStretchFactors.length
    ∧ l.columnStretchFactors.length ≤
        (ensureSufficientSize l rows cols).columnStretchFactors.length
    ∧ (∀ i : Nat, l.rowStretchFactors.length ≤ i →
        i < (ensureSufficientSize l rows cols).rowStretchFactors.length →
        (ensureSufficientSize l rows cols).rowStretchFactors[i]? = some 1)
    ∧ (∀ i : Nat, l.columnStretchFactors.length ≤ i →
        i < (ensureSufficientSize l rows cols).columnStretchFactors.length →
        (ensureSufficientSize l rows cols).columnStretchFactors[i]? = some 1)
    ∧ (∀ (rIdx cIdx : Nat) (cell : GridCell),
        (l.cells[rIdx]?.bind (fun rowCells => rowCells[cIdx]?)) = some cell →
        ((ensureSufficientSize l rows cols).cells[rIdx]?.bind
          (fun rowCells => rowCells[cIdx]?)) = some cell) := by
  rcases sufficientStretchFactors_spec l.rowStretchFactors rows with ⟨rget, rlen, rnew⟩
  rcases sufficientStretchFactors_spec l.columnStretchFactors cols with ⟨cget, clen, cnew⟩
  refine ⟨rfl, rget, cget, rlen, clen, rnew, cnew, ?_⟩
  intro rIdx cIdx cell hcell
  unfold ensureSufficientSize
  dsimp only
  rcases hrow : l.cells[rIdx]? with _ | rowCells
  · rw [hrow] at hcell
    cases hcell
  · rw [hrow] at hcell
    simp only [Option.some_bind] at hcell
    have hr : rIdx < l.cells.length := (List.getElem?_eq_some_iff.mp hrow).1
    have hcells1 : (if l.cells.length <
        (sufficientStretchFactors l.rowStretchFactors rows).length then
          l.cells ++ List.replicate
            ((sufficientStretchFactors l.rowStretchFactors rows).length - l.cells.length) []
        else l.cells)[rIdx]? = some rowCells := by
      split_ifs with hgrow
      · rw [List.getElem?_append_left hr]
        exact hrow
      · exact hrow
    rw [List.getElem?_map, hcells1]
    simp only [Option.map_some', Option.some_bind]
    split_ifs with hcolgrow
    · have hc2 : cIdx < rowCells.length := (List.getElem?_eq_some_iff.mp hcell).1
      rw [List.getElem?_append_left hc2]
      exact hcell
    · exact hcell

/-- Claim C10 (confirmed): `RowStretchFactor` and `ColumnStretchFactor`
answer `-1` for every negative index — a value below the documented minimum
stretch factor of 1, rather than the default 1 or an error. -/
theorem stretchFactor_neg (l : GridLayout) (idx : Int) (h : idx < 0) :
    RowStretchFactor l idx = -1 ∧ ColumnStretchFactor l idx = -1 ∧ (-1 : Int) ≠ 1 := by
  unfold RowStretchFactor ColumnStretchFactor
  rw [if_pos h, if_pos h]
  exact ⟨rfl, rfl, by omega⟩

end Walk

/-! ### Concrete grids and layouts used by the examples below -/

namespace Walk

/-- A growable, non-greedy column item with effective minimum width 50. -/
def exampleColumnItem (col : Nat) : ItemData :=
  ⟨true, ⟨true, true, false, false⟩, ⟨50, 20⟩, ⟨0, 0⟩, ⟨0, 0⟩, none, false, 0, col, 1, 1⟩

/-- The grid of the spec example behind C3: one row, two columns, both
stretch factor 1, both minimum width 50 and no maximum, margins 9 on every
side and spacing 6, at 96 DPI (where the DPI conversions are the identity). -/
def exampleGrid220 : GridLayoutItem :=
  ⟨[[some (exampleColumnItem 0), some (exampleColumnItem 1)]], [1], [1, 1],
    ⟨9, 9, 9, 9⟩, 6, 96, []⟩

/-- A greedy non-spacer item with minimum width 100 in column 0. -/
def gridGreedyItemA : ItemData :=
  ⟨true, ⟨true, true, true, true⟩, ⟨100, 0⟩, ⟨0, 0⟩, ⟨0, 0⟩, none, false, 0, 0, 1, 1⟩

/-- A greedy non-spacer item with minimum width 50 in column 1. -/
def gridGreedyItemB : ItemData :=
  ⟨true, ⟨true, true, true, true⟩, ⟨50, 0⟩, ⟨0, 0⟩, ⟨0, 0⟩, none, false, 0, 1, 1, 1⟩

/-- A greedy spacer in column 1 of the second row. -/
def gridGreedySpacerC : ItemData :=
  ⟨true, ⟨true, true, true, true⟩, ⟨0, 0⟩, ⟨0, 0⟩, ⟨0, 0⟩, none, true, 1, 1, 1, 1⟩

/-- A 2 by 2 grid whose two columns both contain a greedy non-spacer, but
only column 1 additionally contains a greedy spacer; column 0 has the larger
minimum width. -/
def gridGreedyMix : GridLayoutItem :=
  ⟨[[some gridGreedyItemA, some gridGreedyItemB], [none, some gridGreedySpacerC]],
    [1, 1], [1, 1], ⟨0, 0, 0, 0⟩, 0, 96, []⟩

/-- A single non-growable item whose minimum width 100 exceeds the width 10
we request for the grid. -/
def gridMinOverflow : GridLayoutItem :=
  ⟨[[some ⟨true, ⟨false, false, false, false⟩, ⟨100, 0⟩, ⟨0, 0⟩, ⟨0, 0⟩, none, false,
      0, 0, 1, 1⟩]],
    [1], [1], ⟨0, 0, 0, 0⟩, 0, 96, []⟩

/-- A 1 by 1 grid holding one visible item of minimum size 5 by 7, with
margins 9 and spacing 6. -/
def gridSmallItem : GridLayoutItem :=
  ⟨[[some ⟨true, ⟨true, true, false, false⟩, ⟨5, 7⟩, ⟨0, 0⟩, ⟨0, 0⟩, none, false,
      0, 0, 1, 1⟩]],
    [1], [1], ⟨9, 9, 9, 9⟩, 6, 96, []⟩

/-- A one-row grid whose column 0 is empty and whose column 1 holds an item
of minimum size 5 by 7: the resolved widths are `[0, 5]`, a zero-width
section followed by a positive one. -/
def gridLeadingZero : GridLayoutItem :=
  ⟨[[none, some ⟨true, ⟨true, true, false, false⟩, ⟨5, 7⟩, ⟨0, 0⟩, ⟨0, 0⟩, none, false,
      0, 1, 1, 1⟩]],
    [1], [1, 1], ⟨9, 9, 9, 9⟩, 6, 96, []⟩

/-- A grid with a single empty cell: its minimum size is 0 by 0. -/
def gridEmptyCell : GridLayoutItem := ⟨[[none]], [1], [1], ⟨0, 0, 0, 0⟩, 0, 96, []⟩

/-- A small mutable grid model: one row and two columns, stretch factors
already set, widget 3 placed in cell (0, 0). -/
def layoutSample : GridLayout :=
  ⟨[5], [7, 8], [(3, ⟨some (0, 0), 1, 1, ⟨0, 0⟩⟩)], [[⟨0, 0, some 3⟩, ⟨0, 1, none⟩]],
    some [3], ⟨9, 9, 9, 9⟩, 6⟩

end Walk

/-! ### The claims -/

namespace Walk

/-- Claim C1 (corrected): `sectionSizesForSpace` assigns every section the
size `specResolvedSizes` describes — minimum plus the truncated quotient of
remaining excess times stretch over the remaining tier total, clamped to
`[minimum, maximum]`, with the remaining totals updated after every section
in assignment order — and, under the amended side conditions that every
stretch factor is at least 1 and that the space left after the margins
covers the total minimum sizes plus the spacing allowance, the assigned
sizes plus the spacing allowance never exceed the space left after the
margins. The unconditional bound the original claim states is refuted by
`c1_counterexample`. -/
theorem c1_distribution (li : GridLayoutItem) (orient : Orientation) (space : Int)
    (widths : List Int)
    (hSF : ∀ f ∈ stretchFactorsFor li orient, 1 ≤ f)
    (hsp : sectionMinTotal li orient widths + spacingAllowance li orient widths ≤
      spaceAfterMargins li orient space) :
    sectionSizesForSpace li orient space widths = specResolvedSizes li orient space widths
    ∧ (sectionSizesForSpace li orient space widths).sum +
        spacingAllowance li orient widths ≤ spaceAfterMargins li orient space :=
  ⟨sectionSizesForSpace_eq_spec li orient space widths,
   sectionSizes_sum_bounded li orient space widths hSF hsp⟩

theorem c1_witness :
    sectionSizesForSpace exampleGrid220 .horizontal 220 [] =
      specResolvedSizes exampleGrid220 .horizontal 220 []
    ∧ (sectionSizesForSpace exampleGrid220 .horizontal 220 []).sum +
        spacingAllowance exampleGrid220 .horizontal [] ≤
        spaceAfterMargins exampleGrid220 .horizontal 220 :=
  c1_distribution exampleGrid220 .horizontal 220 [] (by decide) (by decide)

/-- A single section whose minimum width 100 exceeds the requested space 10:
with zero margins and zero spacing the assigned sizes sum to 100, so the sum
of assigned sizes plus spacing plus margins exceeds the requested space,
refuting the unconditional bound of claim C1. -/
theorem c1_counterexample :
    sectionSizesForSpace gridMinOverflow .horizontal 10 [] = [100]
    ∧ spacingAllowance gridMinOverflow .horizontal [] = 0
    ∧ MarginsFrom96DPI gridMinOverflow.margins gridMinOverflow.dpi = ⟨0, 0, 0, 0⟩
    ∧ ¬ ((sectionSizesForSpace gridMinOverflow .horizontal 10 []).sum +
          spacingAllowance gridMinOverflow .horizontal [] ≤
          spaceAfterMargins gridMinOverflow .horizontal 10) := by
  decide

/-- Claim C2 (corrected): the list of sections `sectionSizesForSpace`
processes is a permutation of the section infos, stably sorted by the
amended key — greedy non-spacer sections first, among them those that also
contain a greedy spacer first, then larger minimum size, then smaller
truncated `maxSize / stretch` quotient, with the original index as the
stability tie-break — and tiers are processed in order. The original
within-tier order (minimum size before the greedy-spacer flag) is refuted
by `c2_counterexample`. -/
theorem c2_processing (li : GridLayoutItem) (orient : Orientation) (w : List Int) :
    (processedSections li orient w).Perm (sectionInfosOf li orient w)
    ∧ (processedSections li orient w).Pairwise (fun a b =>
        amendedSectionKey a < amendedSectionKey b ∨
          (amendedSectionKey a = amendedSectionKey b ∧ a.index < b.index))
    ∧ (processedSections li orient w).Pairwise (fun a b => tierOf a ≤ tierOf b) := by
  rw [processedSections_eq_sorted]
  exact ⟨sortedSections_perm li orient w, sorted_pairwise_stable li orient w,
    (sorted_pairwise_key_le li orient w).imp tier_mono_of_key_le⟩

/-- Both columns of `gridGreedyMix` are in the greedy-non-spacer tier;
column 0 has the larger minimum (100 versus 50), yet the engine processes
column 1 first because it also contains a greedy spacer, while the ordering
claim C2 states would process column 0 first. -/
theorem c2_counterexample :
    (processedSections gridGreedyMix .horizontal []).map (fun s => s.index) = [1, 0]
    ∧ (isort claimedSectionLess (sectionInfosOf gridGreedyMix .horizontal [])).map
        (fun s => s.index) = [0, 1]
    ∧ ([1, 0] : List Nat) ≠ [0, 1] := by
  decide

/-- Claim C3 (confirmed): on the spec's example grid — width 220, margins 9
on both sides, spacing 6, two columns of stretch factor 1 with minimum width
50 and no maximum — the horizontal pass assigns 98 pixels to each column. -/
theorem c3_example :
    sectionSizesForSpace exampleGrid220 .horizontal 220 [] = [98, 98] := by
  decide

/-- Claim C4 (confirmed): the engine's per-section minimum size equals the
maximum contribution of the visible single-span items in the section
(`specSectionMinSize`), the section infos carry exactly that minimum, and a
grid whose visible items all span at least two sections on the axis yields
per-section minimum sizes of zero. -/
theorem c4_spanOne (li : GridLayoutItem) (orient : Orientation) (widths : List Int) :
    (∀ i : Nat, sectionMinSizeOf li orient widths i = specSectionMinSize li orient widths i)
    ∧ (∀ info ∈ sectionInfosOf li orient widths,
        info.minSize = specSectionMinSize li orient widths info.index)
    ∧ (multiSpanOnly li orient = true →
        ∀ i : Nat, sectionMinSizeOf li orient widths i = 0) := by
  refine ⟨fun i => scanSection_minSize_eq li orient widths i, ?_, ?_⟩
  · intro info hinfo
    rw [sectionInfos_minSize li orient widths info hinfo]
    exact scanSection_minSize_eq li orient widths info.index
  · intro h i
    rw [scanSection_minSize_eq]
    exact specSectionMinSize_zero li orient widths i h

/-- Claim C5 (corrected): a second `MinSizeForSize` call with the same
candidate size always returns the identical result and leaves the snapshot
unchanged; the result is answered from the cache, but — against the
original claim — only when it is positive in both dimensions (see
`c5_counterexample`); and `CreateLayoutItem` starts every snapshot with an
empty cache. -/
theorem c5_cache (li : GridLayoutItem) (size : SizePixels) :
    MinSizeForSize (MinSizeForSize li size).2 size = MinSizeForSize li size
    ∧ (0 < (MinSizeForSize li size).1.width → 0 < (MinSizeForSize li size).1.height →
        lookupCache (MinSizeForSize li size).2.size2MinSize size =
          some (MinSizeForSize li size).1)
    ∧ (∀ (l : GridLayout) (q : Nat → ItemQueries) (dpi : Int),
        (CreateLayoutItem l q dpi).size2MinSize = []) :=
  ⟨MinSizeForSize_idempotent li size,
   fun hw hh => MinSizeForSize_cached li size hw hh,
   fun _ _ _ => rfl⟩

theorem c5_witness :
    lookupCache (MinSizeForSize gridSmallItem ⟨100, 100⟩).2.size2MinSize ⟨100, 100⟩ =
      some (MinSizeForSize gridSmallItem ⟨100, 100⟩).1 :=
  (c5_cache gridSmallItem ⟨100, 100⟩).2.1 (by decide) (by decide)

/-- On a grid with one empty cell the computed minimum size is 0 by 0, and
the cache still answers `none` for the candidate size after the call: a
second call is recomputed, not answered from the cache, refuting the
unconditional cache-hit of claim C5. -/
theorem c5_counterexample :
    (MinSizeForSize gridEmptyCell ⟨100, 100⟩).1 = (⟨0, 0⟩ : SizePixels)
    ∧ lookupCache (MinSizeForSize gridEmptyCell ⟨100, 100⟩).2.size2MinSize ⟨100, 100⟩ =
        none := by
  decide

theorem c6_witness :
    (SetRange layoutSample (some 99) ⟨-1, 0, 1, 1⟩).1 = layoutSample
    ∧ (SetRange layoutSample (some 99) ⟨-1, 0, 1, 1⟩).2.isSome = true :=
  SetRange_validates layoutSample (some 99) ⟨-1, 0, 1, 1⟩
    (Or.inr (Or.inr (Or.inr (by decide))))

/-- The width of `gridLeadingZero`'s minimum size is 29 = 9 + 9 + 5 + 6: the
zero-width column 0 does not stop the positive column 1 (at index 1) from
adding one spacing unit, whereas the between-pairs formula of claim C8
yields 23 = 9 + 9 + 5 with no spacing for a single non-zero section. -/
theorem c8_counterexample :
    (MinSizeForSize gridLeadingZero ⟨100, 100⟩).1.width = 29
    ∧ (MarginsFrom96DPI gridLeadingZero.margins gridLeadingZero.dpi).hnear +
        (MarginsFrom96DPI gridLeadingZero.margins gridLeadingZero.dpi).hfar +
        claimPairSum (spacingPixelsOf gridLeadingZero) (wsFold gridLeadingZero) = 23
    ∧ (29 : Int) ≠ 23 := by
  decide

/-- Claim C8 (corrected): on a cache miss for a non-empty grid,
`MinSizeForSize` returns per axis the margins on both ends plus the sum of
the positive resolved section sizes, where each positive section at a
positive index adds one spacing unit — not one spacing unit between each
pair of non-zero sections as the original claim states (see
`c8_counterexample`). -/
theorem c8_axisSums (li : GridLayoutItem) (size : SizePixels)
    (hcells : li.cells.length ≠ 0)
    (hcache : lookupCache li.size2MinSize size = none) :
    (MinSizeForSize li size).1.width =
      (MarginsFrom96DPI li.margins li.dpi).hnear + (MarginsFrom96DPI li.margins li.dpi).hfar +
        claimAxisSum (spacingPixelsOf li) (wsFold li)
    ∧ (MinSizeForSize li size).1.height =
      (MarginsFrom96DPI li.margins li.dpi).vnear + (MarginsFrom96DPI li.margins li.dpi).vfar +
        claimAxisSum (spacingPixelsOf li) (rowHeightsOf li size) := by
  rw [MinSizeForSize_compute li size hcells hcache, ← sumWithSpacing_eq_claim,
    ← sumWithSpacing_eq_claim]
  exact ⟨rfl, rfl⟩

theorem c8_witness :
    (MinSizeForSize gridSmallItem ⟨100, 100⟩).1.width =
      (MarginsFrom96DPI gridSmallItem.margins gridSmallItem.dpi).hnear +
        (MarginsFrom96DPI gridSmallItem.margins gridSmallItem.dpi).hfar +
        claimAxisSum (spacingPixelsOf gridSmallItem) (wsFold gridSmallItem)
    ∧ (MinSizeForSize gridSmallItem ⟨100, 100⟩).1.height =
      (MarginsFrom96DPI gridSmallItem.margins gridSmallItem.dpi).vnear +
        (MarginsFrom96DPI gridSmallItem.margins gridSmallItem.dpi).vfar +
        claimAxisSum (spacingPixelsOf gridSmallItem)
          (rowHeightsOf gridSmallItem ⟨100, 100⟩) :=
  c8_axisSums gridSmallItem ⟨100, 100⟩ (by decide) (by decide)

/-- Claim C9 (confirmed): in shrink mode with a 200 by 100 image, a 100 by
100 client area and margin 0 at 96 DPI, the scale is
min(100/200, 100/100) = 1/2 and the image is drawn stretched into the
100 by 50 rectangle at X = 0, Y = 25, centered in the client area. -/
theorem c9_shrinkExample :
    drawImage (some ⟨200, 100⟩) ImageViewMode.shrink 0 96 100 100 =
      ImageDrawOp.stretched ⟨0, 25, 100, 50⟩
    ∧ imageScale ImageViewMode.shrink ⟨200, 100⟩ 100 100 = 1 / 2 := by
  constructor
  · norm_num [drawImage, imageScale, ratMin, ratToPixel, IntFrom96DPI, SizeFrom96DPI]
    decide
  · norm_num [imageScale, ratMin]

theorem c10_witness :
    RowStretchFactor layoutSample (-3) = -1 ∧ ColumnStretchFactor layoutSample (-3) = -1
    ∧ (-1 : Int) ≠ 1 :=
  stretchFactor_neg layoutSample (-3) (by decide)

end Walk
